import Mathlib

/-!
Verification of the dialogue policy engine of the AI travel planner.

This file gives a shallow embedding, in Lean 4, of the engine implemented in
src/data.py and src/dm.py (the deterministic, rule-based dialogue manager
dm_decide_rule_based together with the data model it operates on), and proves
or refutes the frozen specification claims about it.

Modelling conventions:
* Python values flowing through slot maps are modelled by `PyVal` (strings,
  integers and booleans; these are the only value shapes the engine ever
  builds or inspects).  Python truthiness is `PyVal.truthy`.
* Python dicts are modelled by association lists with an update-or-append
  insertion (`dinsert`), matching dict assignment semantics; `dict.get`
  is `lookupStr`.  A slot map entry may carry Python None, modelled by an
  `Option PyVal` value; `sget` collapses "absent" and "present but None"
  exactly as `dict.get` does.
* Mutation is modelled by explicit state passing: every function that
  mutates its Python argument returns the updated value instead.
* `getattr`/`setattr`/`hasattr` on the three booking dataclasses are
  modelled by per-record dispatch over a closed attribute list: the data
  fields, the `completed` flag and the four method names of each
  dataclass.  Python objects expose further inherited attributes
  (`__class__`, `__dict__`, `__weakref__`, `__init__`, `__eq__`, ...):
  `hasattr` answers true for those too, assignment to the read-only ones
  among them (`__class__`, `__dict__`, `__weakref__`) raises, and
  assignment to a method name shadows the method, making a later
  `missing_slots()` call raise.  The closed-list model therefore
  under-approximates the raising inputs: a turn writing a slot value or a
  slot_name under such an attribute name raises in Python where the model
  proceeds.  No theorem of this file leans on those collapsed paths: the
  totality claim is settled as a code bug, exhibited on inputs whose
  raise the model does capture; the carryover-gating theorem carries an
  explicit hypothesis keeping those names out of the written slot values
  (which is what "the turn reaches the gating step" means in Python); and
  each remaining guarded theorem stays true of a Python turn that aborts,
  since the raise happens before any action is returned and the writes
  applied before it are already covered by that theorem's hypotheses.
* `getattr` on a method name is modelled as `none`; no code path modelled
  here reads a non-field, non-flag attribute (only `hasattr` ever sees
  those names).
* Python `hasattr(obj, x)` and `setattr(obj, x, v)` raise TypeError when
  `x` is not a string; the one engine path that can feed a non-string
  attribute name into them (the slot-change branch) is therefore modelled
  in the `Except` monad, with `.error` marking the raised TypeError.
-/

/-- Python values appearing in slot maps and booking fields. -/
inductive PyVal
  | str (s : String)
  | int (n : Int)
  | bool (b : Bool)
deriving DecidableEq, Repr

/-- Python truthiness of a value. -/
def PyVal.truthy : PyVal → Bool
  | .str s => s ≠ ""
  | .int n => n ≠ 0
  | .bool b => b

/-- Python str() of a value. -/
def PyVal.toStr : PyVal → String
  | .str s => s
  | .int n => toString n
  | .bool b => if b then "True" else "False"

/-- Truthiness of an optional value (Python None is falsy). -/
def truthyO : Option PyVal → Bool
  | some v => v.truthy
  | none => false

/-- Association-list lookup, i.e. Python dict.get (first match; dicts built
by `dinsert` never hold duplicate keys). -/
def lookupStr {α : Type} : List (String × α) → String → Option α
  | [], _ => none
  | (k, v) :: rest, key => if k = key then some v else lookupStr rest key

/-- Python dict assignment d[k] = v: update in place if the key exists,
otherwise append. -/
def dinsert {α : Type} : List (String × α) → String → α → List (String × α)
  | [], key, v => [(key, v)]
  | (k, w) :: rest, key, v =>
      if k = key then (k, v) :: rest else (k, w) :: dinsert rest key v

/-- A slot map as produced by the NLU: keys are strings (the interface
contract), a value may itself be Python None. -/
abbrev SlotMap := List (String × Option PyVal)

/-- slots.get(key): collapses an absent key and a key stored with value
None into the same answer, as Python dict.get does. -/
def sget (slots : SlotMap) (key : String) : Option PyVal :=
  match lookupStr slots key with
  | some v => v
  | none => none

/-- NLU output consumed by the dialogue manager: an optional intent plus a
slot map (a Python None slots entry is modelled by the empty map, which the
source normalises to with `or {}`). -/
structure NLUOutput where
  intent : Option String
  slots : SlotMap
deriving DecidableEq, Repr

/-! ## Booking records (src/data.py) -/

/-- FlightBooking dataclass.  The `completed` flag is `Option PyVal`
because Python code can (and in one branch does) assign arbitrary values,
including None, to the attribute; it is created as Python False. -/
structure FlightBooking where
  origin : Option PyVal := none
  destination : Option PyVal := none
  departure_date : Option PyVal := none
  return_date : Option PyVal := none
  num_passengers : Option PyVal := none
  budget_level : Option PyVal := none
  completed : Option PyVal := some (.bool false)
deriving DecidableEq, Repr

/-- AccommodationBooking dataclass. -/
structure AccommodationBooking where
  destination : Option PyVal := none
  check_in_date : Option PyVal := none
  check_out_date : Option PyVal := none
  num_guests : Option PyVal := none
  budget_level : Option PyVal := none
  completed : Option PyVal := some (.bool false)
deriving DecidableEq, Repr

/-- ActivityBooking dataclass. -/
structure ActivityBooking where
  destination : Option PyVal := none
  activity_category : Option PyVal := none
  budget_level : Option PyVal := none
  completed : Option PyVal := some (.bool false)
deriving DecidableEq, Repr

/-- The required-slot list of FlightBooking.missing_slots. -/
def flightRequired : List String :=
  ["origin", "destination", "departure_date", "num_passengers", "budget_level"]

/-- The required-slot list of AccommodationBooking.missing_slots. -/
def accommodationRequired : List String :=
  ["destination", "check_in_date", "check_out_date", "num_guests", "budget_level"]

/-- The required-slot list of ActivityBooking.missing_slots. -/
def activityRequired : List String :=
  ["destination", "activity_category", "budget_level"]

/-- getattr on a FlightBooking by attribute name (data fields and the
completed flag; method names are only ever consulted through hasattr). -/
def FlightBooking.getattrF (b : FlightBooking) (s : String) : Option PyVal :=
  if s = "origin" then b.origin
  else if s = "destination" then b.destination
  else if s = "departure_date" then b.departure_date
  else if s = "return_date" then b.return_date
  else if s = "num_passengers" then b.num_passengers
  else if s = "budget_level" then b.budget_level
  else if s = "completed" then b.completed
  else none

/-- setattr on a FlightBooking by attribute name; unknown names leave the
record unchanged.  In Python, assignment to an inherited read-only
attribute (`__class__`, `__dict__`, `__weakref__`) raises, and assignment
to any other non-field name creates a shadowing instance attribute; the
modelled call sites only reach setattr through the closed-list hasattr
below, which filters those names out first (see the module comment for
the resulting model boundary). -/
def FlightBooking.setattrF (b : FlightBooking) (s : String) (v : Option PyVal) :
    FlightBooking :=
  if s = "origin" then { b with origin := v }
  else if s = "destination" then { b with destination := v }
  else if s = "departure_date" then { b with departure_date := v }
  else if s = "return_date" then { b with return_date := v }
  else if s = "num_passengers" then { b with num_passengers := v }
  else if s = "budget_level" then { b with budget_level := v }
  else if s = "completed" then { b with completed := v }
  else b

/-- hasattr names of a FlightBooking (fields, flag, methods).  Python
additionally answers true for inherited object attributes such as
`__class__` or `__init__`; the module comment explains how that
enlargement, omitted here, is accounted for. -/
def flightAttrs : List String :=
  ["origin", "destination", "departure_date", "return_date", "num_passengers",
   "budget_level", "completed", "to_dict", "missing_slots", "update", "has_any_data"]

/-- FlightBooking.missing_slots. -/
def FlightBooking.missing_slots (b : FlightBooking) : List String :=
  flightRequired.filter (fun s => (b.getattrF s).isNone)

/-- getattr on an AccommodationBooking. -/
def AccommodationBooking.getattrA (b : AccommodationBooking) (s : String) :
    Option PyVal :=
  if s = "destination" then b.destination
  else if s = "check_in_date" then b.check_in_date
  else if s = "check_out_date" then b.check_out_date
  else if s = "num_guests" then b.num_guests
  else if s = "budget_level" then b.budget_level
  else if s = "completed" then b.completed
  else none

/-- setattr on an AccommodationBooking. -/
def AccommodationBooking.setattrA (b : AccommodationBooking) (s : String)
    (v : Option PyVal) : AccommodationBooking :=
  if s = "destination" then { b with destination := v }
  else if s = "check_in_date" then { b with check_in_date := v }
  else if s = "check_out_date" then { b with check_out_date := v }
  else if s = "num_guests" then { b with num_guests := v }
  else if s = "budget_level" then { b with budget_level := v }
  else if s = "completed" then { b with completed := v }
  else b

/-- hasattr names of an AccommodationBooking (same closed-list boundary
as `flightAttrs`). -/
def accommodationAttrs : List String :=
  ["destination", "check_in_date", "check_out_date", "num_guests",
   "budget_level", "completed", "to_dict", "missing_slots", "update", "has_any_data"]

/-- AccommodationBooking.missing_slots. -/
def AccommodationBooking.missing_slots (b : AccommodationBooking) : List String :=
  accommodationRequired.filter (fun s => (b.getattrA s).isNone)

/-- getattr on an ActivityBooking. -/
def ActivityBooking.getattrV (b : ActivityBooking) (s : String) : Option PyVal :=
  if s = "destination" then b.destination
  else if s = "activity_category" then b.activity_category
  else if s = "budget_level" then b.budget_level
  else if s = "completed" then b.completed
  else none

/-- setattr on an ActivityBooking. -/
def ActivityBooking.setattrV (b : ActivityBooking) (s : String) (v : Option PyVal) :
    ActivityBooking :=
  if s = "destination" then { b with destination := v }
  else if s = "activity_category" then { b with activity_category := v }
  else if s = "budget_level" then { b with budget_level := v }
  else if s = "completed" then { b with completed := v }
  else b

/-- hasattr names of an ActivityBooking (same closed-list boundary as
`flightAttrs`). -/
def activityAttrs : List String :=
  ["destination", "activity_category", "budget_level",
   "completed", "to_dict", "missing_slots", "update", "has_any_data"]

/-- ActivityBooking.missing_slots. -/
def ActivityBooking.missing_slots (b : ActivityBooking) : List String :=
  activityRequired.filter (fun s => (b.getattrV s).isNone)

/-! ## Trip context (src/data.py) -/

/-- TripContext dataclass.  completed_intents is a Python list of the task
identifiers passed to mark_completed; that argument is state.current_intent,
which may be Python None, so entries are `Option String`. -/
structure TripContext where
  flight : FlightBooking := {}
  accommodation : AccommodationBooking := {}
  activity : ActivityBooking := {}
  completed_intents : List (Option String) := []
deriving DecidableEq, Repr

/-- A booking object handed out by TripContext.get_booking. -/
inductive Booking
  | fl (b : FlightBooking)
  | ac (b : AccommodationBooking)
  | av (b : ActivityBooking)
deriving DecidableEq, Repr

/-- getattr dispatch on a booking object. -/
def Booking.getattrB : Booking → String → Option PyVal
  | .fl b, s => b.getattrF s
  | .ac b, s => b.getattrA s
  | .av b, s => b.getattrV s

/-- hasattr dispatch on a booking object. -/
def Booking.hasattrB : Booking → String → Bool
  | .fl _, s => s ∈ flightAttrs
  | .ac _, s => s ∈ accommodationAttrs
  | .av _, s => s ∈ activityAttrs

/-- missing_slots dispatch on a booking object. -/
def Booking.missingB : Booking → List String
  | .fl b => b.missing_slots
  | .ac b => b.missing_slots
  | .av b => b.missing_slots

/-- TripContext.get_booking: the mapping dict lookup, nothing for any other
identifier (including Python None). -/
def TripContext.get_booking (ctx : TripContext) (intent : Option String) :
    Option Booking :=
  if intent = some "BOOK_FLIGHT" then some (.fl ctx.flight)
  else if intent = some "BOOK_ACCOMMODATION" then some (.ac ctx.accommodation)
  else if intent = some "BOOK_ACTIVITY" then some (.av ctx.activity)
  else none

/-- setattr through the booking reference returned by get_booking: the
mutation lands on the record owned by the context (Python aliasing). -/
def TripContext.setattrFor (ctx : TripContext) (intent : Option String)
    (name : String) (v : Option PyVal) : TripContext :=
  if intent = some "BOOK_FLIGHT" then { ctx with flight := ctx.flight.setattrF name v }
  else if intent = some "BOOK_ACCOMMODATION" then
    { ctx with accommodation := ctx.accommodation.setattrA name v }
  else if intent = some "BOOK_ACTIVITY" then
    { ctx with activity := ctx.activity.setattrV name v }
  else ctx

/-- The CARRYOVER_SLOTS table entry for a source/target intent pair, i.e.
get_carryover_slots: the mapping dict for one of the six pairs, empty
otherwise. -/
def get_carryover_slots (fromIntent toIntent : String) : List (String × String) :=
  if fromIntent = "BOOK_FLIGHT" ∧ toIntent = "BOOK_ACCOMMODATION" then
    [("destination", "destination"), ("num_passengers", "num_guests"),
     ("departure_date", "check_in_date"), ("return_date", "check_out_date"),
     ("budget_level", "budget_level")]
  else if fromIntent = "BOOK_FLIGHT" ∧ toIntent = "BOOK_ACTIVITY" then
    [("destination", "destination"), ("budget_level", "budget_level")]
  else if fromIntent = "BOOK_ACCOMMODATION" ∧ toIntent = "BOOK_FLIGHT" then
    [("destination", "destination"), ("num_guests", "num_passengers"),
     ("check_in_date", "departure_date"), ("check_out_date", "return_date"),
     ("budget_level", "budget_level")]
  else if fromIntent = "BOOK_ACCOMMODATION" ∧ toIntent = "BOOK_ACTIVITY" then
    [("destination", "destination"), ("budget_level", "budget_level")]
  else if fromIntent = "BOOK_ACTIVITY" ∧ toIntent = "BOOK_FLIGHT" then
    [("destination", "destination"), ("budget_level", "budget_level")]
  else if fromIntent = "BOOK_ACTIVITY" ∧ toIntent = "BOOK_ACCOMMODATION" then
    [("destination", "destination"), ("budget_level", "budget_level")]
  else []

/-- The loop body of TripContext.get_carryover_values: fold the slot map
entries, keeping the non-None source values keyed by target slot. -/
def buildCarryover (get : String → Option PyVal) :
    List (String × String) → List (String × PyVal) → List (String × PyVal)
  | [], acc => acc
  | (src, tgt) :: rest, acc =>
      match get src with
      | some v => buildCarryover get rest (dinsert acc tgt v)
      | none => buildCarryover get rest acc

/-- TripContext.get_carryover_values. -/
def TripContext.get_carryover_values (ctx : TripContext)
    (fromIntent toIntent : String) : List (String × PyVal) :=
  match ctx.get_booking (some fromIntent) with
  | none => []
  | some src => buildCarryover src.getattrB (get_carryover_slots fromIntent toIntent) []

/-- TripContext.mark_completed. -/
def TripContext.mark_completed (ctx : TripContext) (intent : Option String) :
    TripContext :=
  let ctx :=
    match ctx.get_booking intent with
    | some _ => ctx.setattrFor intent "completed" (some (.bool true))
    | none => ctx
  if intent ∈ ctx.completed_intents then ctx
  else { ctx with completed_intents := ctx.completed_intents ++ [intent] }

/-! ## Dialogue state and decision engine (src/dm.py) -/

/-- The INTENTS list of src/schema.py (keys of INTENT_SCHEMAS). -/
def INTENTS : List String :=
  ["BOOK_FLIGHT", "BOOK_ACCOMMODATION", "BOOK_ACTIVITY", "COMPARE_CITIES", "OOD"]

/-- The BOOKING_INTENTS list of src/schema.py. -/
def BOOKING_INTENTS : List String :=
  ["BOOK_FLIGHT", "BOOK_ACCOMMODATION", "BOOK_ACTIVITY"]

/-- The SLOTS list of src/schema.py: the sorted, de-duplicated union of the
slot lists of all intent schemas. -/
def SLOTS : List String :=
  ["activity_category", "budget_level", "check_in_date", "check_out_date",
   "city1", "city2", "departure_date", "destination", "num_guests",
   "num_passengers", "origin", "return_date"]

/-- The compare-cities scratch dict.  Only the three keys city1, city2 and
activity_category are ever written or read by the engine, so the dict is
modelled as a record of the three optional values. -/
structure CompareCities where
  city1 : Option PyVal := none
  city2 : Option PyVal := none
  activity_category : Option PyVal := none
deriving DecidableEq, Repr

/-- DialogueState dataclass of src/dm.py. -/
structure DialogueState where
  context : TripContext := {}
  current_intent : Option String := none
  pending_carryover : Option (List (String × PyVal)) := none
  awaiting_carryover_response : Bool := false
  last_action : Option String := none
  confirmed : Bool := false
  compare_cities_data : CompareCities := {}
deriving DecidableEq, Repr

/-- The all-empty state a conversation starts from (DialogueState()). -/
def initialState : DialogueState := {}

/-- Python truthiness of the optional current_intent string. -/
def intentTruthy : Option String → Bool
  | some s => s ≠ ""
  | none => false

/-- Python truthiness of the pending_carryover dict-or-None. -/
def pendingTruthy : Option (List (String × PyVal)) → Bool
  | some l => !l.isEmpty
  | none => false

/-- _get_complete_action. -/
def getCompleteAction (intent : Option String) : String :=
  if intent = some "BOOK_FLIGHT" then "COMPLETE_FLIGHT_BOOKING"
  else if intent = some "BOOK_ACCOMMODATION" then "COMPLETE_ACCOMMODATION_BOOKING"
  else if intent = some "BOOK_ACTIVITY" then "COMPLETE_ACTIVITY_BOOKING"
  else "ASK_CLARIFICATION"

/-- Python str.strip(): drop leading and trailing whitespace (written over
the character list so it computes by structural recursion). -/
def pyStrip (s : String) : String :=
  ⟨((s.data.dropWhile Char.isWhitespace).reverse.dropWhile Char.isWhitespace).reverse⟩

/-- Python str.lower(), modelled exactly on the alphabet the normaliser
compares against: the ASCII letters plus the accented letter of the
Italian keyword "sì".  Python lowers the full Unicode range; on other
non-ASCII letters the model is the identity, and since none of them
lowers to a letter of a keyword, such inputs are classified as unclear
by the model and the code alike. -/
def pyLower (s : String) : String :=
  ⟨s.data.map (fun c => if c = 'Ì' then 'ì' else c.toLower)⟩

/-- _normalize_yes_no. -/
def normalizeYesNo : Option PyVal → Option String
  | none => none
  | some v =>
      let s := pyLower (pyStrip v.toStr)
      if s = "yes" ∨ s = "y" ∨ s = "si" ∨ s = "sì" ∨ s = "true" then some "yes"
      else if s = "no" ∨ s = "n" ∨ s = "false" then some "no"
      else none

/-- DialogueState.get_current_booking. -/
def DialogueState.get_current_booking (s : DialogueState) : Option Booking :=
  s.context.get_booking s.current_intent

/-- DialogueState.get_missing_slots (the hasattr guard on missing_slots is
always satisfied by the three dataclasses). -/
def DialogueState.get_missing_slots (s : DialogueState) : List String :=
  match s.get_current_booking with
  | some b => b.missingB
  | none => []

/-- The f-string "REQUEST_MISSING_SLOT({slot})". -/
def reqMissing (slot : String) : String :=
  "REQUEST_MISSING_SLOT(" ++ slot ++ ")"

/-- The compare-cities merge loop (lines 194 to 196 of src/dm.py): each
non-None incoming value for city1, city2 or activity_category overwrites the
stored one; absent or None values leave it alone. -/
def mergeCompare (cc : CompareCities) (slots : SlotMap) : CompareCities :=
  let cc := match sget slots "city1" with
            | some v => { cc with city1 := some v }
            | none => cc
  let cc := match sget slots "city2" with
            | some v => { cc with city2 := some v }
            | none => cc
  match sget slots "activity_category" with
  | some v => { cc with activity_category := some v }
  | none => cc

/-- The slot-application loop of _update_state_with_nlu: each non-None slot
value whose key is an attribute of the booking is written through setattr. -/
def applySlots (ctx : TripContext) (intent : Option String) (b : Booking) :
    SlotMap → TripContext
  | [] => ctx
  | (slot, v) :: rest =>
      match v with
      | some w =>
          if b.hasattrB slot then
            applySlots (ctx.setattrFor intent slot (some w)) intent b rest
          else applySlots ctx intent b rest
      | none => applySlots ctx intent b rest

/-- _update_state_with_nlu.  Returns the updated dialogue state. -/
def updateStateWithNLU (s : DialogueState) (nlu : NLUOutput) : DialogueState :=
  let slots := nlu.slots
  match nlu.intent with
  | none => s
  | some i =>
      if i ∉ INTENTS ∨ i = "OOD" ∨ i = "COMPARE_CITIES" then s
      else
        let s :=
          match s.current_intent with
          | some cur =>
              if cur ≠ "" ∧ cur ≠ i then
                let carryover := s.context.get_carryover_values cur i
                let s :=
                  if carryover.isEmpty then s
                  else { s with pending_carryover := some carryover }
                { s with confirmed := false }
              else s
          | none => s
        let s := { s with current_intent := some i }
        match s.get_current_booking with
        | some b => if slots.isEmpty then s else { s with context := applySlots s.context s.current_intent b slots }
        | none => s

/-- The carryover-application loop of the offer-response branch: each
pending entry whose key is an attribute of the current booking is written
through setattr. -/
def applyCarryover (ctx : TripContext) (intent : Option String) (b : Booking) :
    List (String × PyVal) → TripContext
  | [] => ctx
  | (k, v) :: rest =>
      if b.hasattrB k then
        applyCarryover (ctx.setattrFor intent k (some v)) intent b rest
      else applyCarryover ctx intent b rest

/-- The state mutation of the offer-response branch (lines 235 to 246 of
src/dm.py) once the confirmation normalised to yes or no. -/
def applyOfferResponse (s : DialogueState) (conf : String) : DialogueState :=
  if conf = "yes" then
    let s :=
      if pendingTruthy s.pending_carryover then
        match s.pending_carryover, s.get_current_booking with
        | some pend, some b =>
            { s with context := applyCarryover s.context s.current_intent b pend }
        | _, _ => s
      else s
    { s with pending_carryover := none, awaiting_carryover_response := false }
  else if conf = "no" then
    { s with pending_carryover := none, awaiting_carryover_response := false }
  else s

/-- The final stretch of dm_decide_rule_based (lines 284 to 298): request
the first missing slot, else ask confirmation, else complete. -/
def dmFinal (s : DialogueState) (missing : List String) : String × DialogueState :=
  match missing with
  | m :: _ =>
      let action := reqMissing m
      (action, { s with last_action := some action })
  | [] =>
      if !s.confirmed then
        ("ASK_CONFIRMATION", { s with last_action := some "ASK_CONFIRMATION" })
      else
        let action := getCompleteAction s.current_intent
        (action,
          { s with context := s.context.mark_completed s.current_intent,
                   last_action := some action })

/-- Lines 262 to 298 of dm_decide_rule_based: state update, the no-task
check, carryover gating, then `dmFinal`. -/
def dmTail (s : DialogueState) (nlu : NLUOutput) : String × DialogueState :=
  let s := updateStateWithNLU s nlu
  if !intentTruthy s.current_intent then
    ("ASK_CLARIFICATION", { s with last_action := some "ASK_CLARIFICATION" })
  else
    let missing := s.get_missing_slots
    if pendingTruthy s.pending_carryover ∧ !s.awaiting_carryover_response ∧ !missing.isEmpty then
      match s.pending_carryover with
      | some pend =>
          if pend.any (fun kv => kv.1 ∈ missing) then
            ("OFFER_SLOT_CARRYOVER",
              { s with awaiting_carryover_response := true,
                       last_action := some "OFFER_SLOT_CARRYOVER" })
          else dmFinal { s with pending_carryover := none } missing
      | none => dmFinal s missing
    else dmFinal s missing

/-- The slot-change branch (lines 250 to 260) followed by `dmTail`; entered
whenever the confirmation and offer loops did not return.  A truthy
non-string slot_name reaching hasattr raises TypeError, modelled as error. -/
def dmAfterOffer (s : DialogueState) (nlu : NLUOutput) :
    Except String (String × DialogueState) :=
  if s.last_action = some "REQUEST_SLOT_CHANGE" then
    let stc := sget nlu.slots "slot_name"
    if truthyO stc then
      match s.get_current_booking with
      | some b =>
          match stc with
          | some (.str name) =>
              if b.hasattrB name then
                let action := reqMissing name
                .ok (action,
                  { s with context := s.context.setattrFor s.current_intent name none,
                           last_action := some action })
              else
                .ok ("REQUEST_SLOT_CHANGE", { s with last_action := some "REQUEST_SLOT_CHANGE" })
          | _ => .error "TypeError: attribute name must be string"
      | none =>
          .ok ("REQUEST_SLOT_CHANGE", { s with last_action := some "REQUEST_SLOT_CHANGE" })
    else
      .ok ("REQUEST_SLOT_CHANGE", { s with last_action := some "REQUEST_SLOT_CHANGE" })
  else .ok (dmTail s nlu)

/-- dm_decide_rule_based.  The user utterance argument is accepted, as in
the source, and never used by the rule-based engine. -/
def dmDecideRuleBased (s : DialogueState) (nlu : NLUOutput)
    (userUtterance : String) : Except String (String × DialogueState) :=
  let slots := nlu.slots
  if nlu.intent = some "END_DIALOGUE" then
    .ok ("GOODBYE", { s with last_action := some "GOODBYE" })
  else if (match nlu.intent with
           | none => true
           | some i => i = "OOD" ∨ i ∉ INTENTS) then
    .ok ("ASK_CLARIFICATION", { s with last_action := some "ASK_CLARIFICATION" })
  else if nlu.intent = some "COMPARE_CITIES" then
    let cc := mergeCompare s.compare_cities_data slots
    let s := { s with current_intent := some "COMPARE_CITIES", compare_cities_data := cc }
    if !truthyO cc.city1 then
      .ok (reqMissing "city1", { s with last_action := some (reqMissing "city1") })
    else if !truthyO cc.city2 then
      .ok (reqMissing "city2", { s with last_action := some (reqMissing "city2") })
    else if !truthyO cc.activity_category then
      .ok (reqMissing "activity_category",
        { s with last_action := some (reqMissing "activity_category") })
    else
      .ok ("COMPARE_CITIES_RESULT", { s with last_action := some "COMPARE_CITIES_RESULT" })
  else if s.last_action = some "ASK_CONFIRMATION" then
    let conf := normalizeYesNo (sget slots "confirmation")
    if conf = some "no" then
      .ok ("REQUEST_SLOT_CHANGE", { s with last_action := some "REQUEST_SLOT_CHANGE" })
    else if conf = some "yes" then
      let action := getCompleteAction s.current_intent
      .ok (action,
        { s with confirmed := true,
                 context := s.context.mark_completed s.current_intent,
                 last_action := some action })
    else .ok ("ASK_CONFIRMATION", s)
  else if s.last_action = some "OFFER_SLOT_CARRYOVER" then
    match normalizeYesNo (sget slots "confirmation") with
    | none => .ok ("OFFER_SLOT_CARRYOVER", { s with last_action := some "OFFER_SLOT_CARRYOVER" })
    | some conf => dmAfterOffer (applyOfferResponse s conf) nlu
  else dmAfterOffer s nlu

/-- The state after one turn (the error case keeps the old state; it is
only used on turns known to succeed). -/
def afterTurn (s : DialogueState) (nlu : NLUOutput) : DialogueState :=
  match dmDecideRuleBased s nlu "" with
  | .ok (_, s2) => s2
  | .error _ => s

/-- Dialogue states reachable from the initial state by successful turns of
the rule-based engine. -/
inductive Reachable : DialogueState → Prop
  | init : Reachable initialState
  | step {s : DialogueState} {nlu : NLUOutput} {u a : String} {s2 : DialogueState} :
      Reachable s → dmDecideRuleBased s nlu u = .ok (a, s2) → Reachable s2

/-! ## Helper predicates used by the claims -/

/-- The completed flag of the booking record owned for a task identifier,
read through Python truthiness; false when the task owns no record. -/
def flagOf (t : String) (ctx : TripContext) : Bool :=
  match ctx.get_booking (some t) with
  | some b => truthyO (b.getattrB "completed")
  | none => false

/-- The value of an attribute of the record owned for a task identifier. -/
def TripContext.attrOf (ctx : TripContext) (intent attr : String) : Option PyVal :=
  match ctx.get_booking (some intent) with
  | some b => b.getattrB attr
  | none => none

/-! ## C5: missing_slots is empty iff all required fields are set, and is a
deterministic function of the null-profile, listed in declared order. -/

/-- C5: for each Booking Record variant, missing_slots is empty exactly when
every required field is non-null; the result is always a sublist of the fixed
declared required list (hence listed in declared order), and any two records
with the same set of null required fields get the same missing list. -/
theorem C5_missing_slots_empty_iff_and_deterministic :
    (∀ b : FlightBooking,
        (b.missing_slots = [] ↔ ∀ s ∈ flightRequired, (b.getattrF s).isSome) ∧
        b.missing_slots.Sublist flightRequired) ∧
    (∀ b c : FlightBooking,
        (∀ s ∈ flightRequired, (b.getattrF s).isNone = (c.getattrF s).isNone) →
        b.missing_slots = c.missing_slots) ∧
    (∀ b : AccommodationBooking,
        (b.missing_slots = [] ↔ ∀ s ∈ accommodationRequired, (b.getattrA s).isSome) ∧
        b.missing_slots.Sublist accommodationRequired) ∧
    (∀ b c : AccommodationBooking,
        (∀ s ∈ accommodationRequired, (b.getattrA s).isNone = (c.getattrA s).isNone) →
        b.missing_slots = c.missing_slots) ∧
    (∀ b : ActivityBooking,
        (b.missing_slots = [] ↔ ∀ s ∈ activityRequired, (b.getattrV s).isSome) ∧
        b.missing_slots.Sublist activityRequired) ∧
    (∀ b c : ActivityBooking,
        (∀ s ∈ activityRequired, (b.getattrV s).isNone = (c.getattrV s).isNone) →
        b.missing_slots = c.missing_slots) := by
  refine ⟨fun b => ⟨?_, ?_⟩, fun b c h => ?_, fun b => ⟨?_, ?_⟩, fun b c h => ?_,
    fun b => ⟨?_, ?_⟩, fun b c h => ?_⟩ <;>
    first
      | (rw [FlightBooking.missing_slots, List.filter_eq_nil_iff]
         simp [Option.isNone_iff_eq_none, Option.isSome_iff_ne_none])
      | (rw [AccommodationBooking.missing_slots, List.filter_eq_nil_iff]
         simp [Option.isNone_iff_eq_none, Option.isSome_iff_ne_none])
      | (rw [ActivityBooking.missing_slots, List.filter_eq_nil_iff]
         simp [Option.isNone_iff_eq_none, Option.isSome_iff_ne_none])
      | exact List.filter_sublist _
      | (rw [FlightBooking.missing_slots, FlightBooking.missing_slots]
         exact List.filter_congr h)
      | (rw [AccommodationBooking.missing_slots, AccommodationBooking.missing_slots]
         exact List.filter_congr h)
      | (rw [ActivityBooking.missing_slots, ActivityBooking.missing_slots]
         exact List.filter_congr h)

/-- Witness for C5: the determinism conjunct applied to two concrete flight
records, equally filled but filled in different orders, and the emptiness
conjunct applied to a full record. -/
theorem C5_witness :
    (∀ s ∈ flightRequired,
        (FlightBooking.getattrF { origin := some (.str "Rome"),
                                  destination := some (.str "Paris") } s).isNone =
        (FlightBooking.getattrF { destination := some (.str "Paris"),
                                  origin := some (.str "Milan") } s).isNone) ∧
    FlightBooking.missing_slots { origin := some (.str "Rome"),
                                  destination := some (.str "Paris") } =
      FlightBooking.missing_slots { destination := some (.str "Paris"),
                                    origin := some (.str "Milan") } :=
  ⟨by decide, C5_missing_slots_empty_iff_and_deterministic.2.1 _ _ (by decide)⟩

/-! ## C8 and C10: mark_completed -/

attribute [ext] TripContext DialogueState

/-- setattrFor never touches the completed-intents list. -/
theorem setattrFor_completed_intents (ctx : TripContext) (i : Option String)
    (n : String) (v : Option PyVal) :
    (ctx.setattrFor i n v).completed_intents = ctx.completed_intents := by
  unfold TripContext.setattrFor
  split
  · rfl
  · split
    · rfl
    · split <;> rfl

/-- The completed-intents list after mark_completed: append the identifier
unless it is already present. -/
theorem mark_completed_intents (ctx : TripContext) (t : Option String) :
    (ctx.mark_completed t).completed_intents =
      if t ∈ ctx.completed_intents then ctx.completed_intents
      else ctx.completed_intents ++ [t] := by
  unfold TripContext.mark_completed
  cases hb : ctx.get_booking t <;>
    simp only [hb, setattrFor_completed_intents] <;>
      split <;> simp_all [setattrFor_completed_intents]

/-- The flight record after mark_completed. -/
theorem mark_completed_flight (ctx : TripContext) (t : Option String) :
    (ctx.mark_completed t).flight =
      if t = some "BOOK_FLIGHT" then ctx.flight.setattrF "completed" (some (.bool true))
      else ctx.flight := by
  unfold TripContext.mark_completed TripContext.get_booking TripContext.setattrFor
  by_cases h1 : t = some "BOOK_FLIGHT" <;>
    by_cases h2 : t = some "BOOK_ACCOMMODATION" <;>
      by_cases h3 : t = some "BOOK_ACTIVITY" <;>
        simp_all <;> split <;> rfl

/-- The accommodation record after mark_completed. -/
theorem mark_completed_accommodation (ctx : TripContext) (t : Option String) :
    (ctx.mark_completed t).accommodation =
      if t = some "BOOK_ACCOMMODATION" then
        ctx.accommodation.setattrA "completed" (some (.bool true))
      else ctx.accommodation := by
  unfold TripContext.mark_completed TripContext.get_booking TripContext.setattrFor
  by_cases h1 : t = some "BOOK_FLIGHT" <;>
    by_cases h2 : t = some "BOOK_ACCOMMODATION" <;>
      by_cases h3 : t = some "BOOK_ACTIVITY" <;>
        simp_all <;> split <;> rfl

/-- The activity record after mark_completed. -/
theorem mark_completed_activity (ctx : TripContext) (t : Option String) :
    (ctx.mark_completed t).activity =
      if t = some "BOOK_ACTIVITY" then ctx.activity.setattrV "completed" (some (.bool true))
      else ctx.activity := by
  unfold TripContext.mark_completed TripContext.get_booking TripContext.setattrFor
  by_cases h1 : t = some "BOOK_FLIGHT" <;>
    by_cases h2 : t = some "BOOK_ACCOMMODATION" <;>
      by_cases h3 : t = some "BOOK_ACTIVITY" <;>
        simp_all <;> split <;> rfl

/-- The identifier is in the completed-intents list after mark_completed. -/
theorem mem_mark_completed (ctx : TripContext) (t : Option String) :
    t ∈ (ctx.mark_completed t).completed_intents := by
  rw [mark_completed_intents]
  split <;> simp_all

/-- Repeating a field write is a no-op on flight records. -/
theorem setattrF_idem (b : FlightBooking) (s : String) (v : Option PyVal) :
    (b.setattrF s v).setattrF s v = b.setattrF s v := by
  unfold FlightBooking.setattrF
  split_ifs <;> rfl

/-- Repeating a field write is a no-op on accommodation records. -/
theorem setattrA_idem (b : AccommodationBooking) (s : String) (v : Option PyVal) :
    (b.setattrA s v).setattrA s v = b.setattrA s v := by
  unfold AccommodationBooking.setattrA
  split_ifs <;> rfl

/-- Repeating a field write is a no-op on activity records. -/
theorem setattrV_idem (b : ActivityBooking) (s : String) (v : Option PyVal) :
    (b.setattrV s v).setattrV s v = b.setattrV s v := by
  unfold ActivityBooking.setattrV
  split_ifs <;> rfl

/-- Marking a booking task completed sets the completed flag of its record. -/
theorem flagOf_mark_completed (ctx : TripContext) (i : String)
    (hi : i ∈ BOOKING_INTENTS) : flagOf i (ctx.mark_completed (some i)) = true := by
  unfold flagOf TripContext.get_booking
  simp only [BOOKING_INTENTS, List.mem_cons, List.not_mem_nil, or_false] at hi
  rcases hi with rfl | rfl | rfl <;>
    simp [mark_completed_flight, mark_completed_accommodation, mark_completed_activity,
      FlightBooking.setattrF, AccommodationBooking.setattrA, ActivityBooking.setattrV,
      Booking.getattrB, FlightBooking.getattrF, AccommodationBooking.getattrA,
      ActivityBooking.getattrV, truthyO, PyVal.truthy]

/-- C8: mark_completed is idempotent; starting from a context in which the
task identifier occurs at most once in the completed-intents list (as in
every context the engine builds), after the call the list holds exactly one
entry equal to it, and for a booking task the completed flag of the owned
record is true after the first call. -/
theorem C8_mark_completed_idempotent (ctx : TripContext) (t : Option String)
    (hcount : ctx.completed_intents.count t ≤ 1) :
    (ctx.mark_completed t).mark_completed t = ctx.mark_completed t ∧
    (ctx.mark_completed t).completed_intents.count t = 1 ∧
    (∀ i, t = some i → i ∈ BOOKING_INTENTS → flagOf i (ctx.mark_completed t) = true) := by
  refine ⟨?_, ?_, ?_⟩
  · ext1
    · rw [mark_completed_flight (ctx.mark_completed t) t, mark_completed_flight ctx t]
      split <;> simp [setattrF_idem]
    · rw [mark_completed_accommodation (ctx.mark_completed t) t,
        mark_completed_accommodation ctx t]
      split <;> simp [setattrA_idem]
    · rw [mark_completed_activity (ctx.mark_completed t) t, mark_completed_activity ctx t]
      split <;> simp [setattrV_idem]
    · rw [mark_completed_intents, if_pos (mem_mark_completed ctx t)]
  · rw [mark_completed_intents]
    split
    · rename_i hmem
      have h1 : 0 < ctx.completed_intents.count t := List.count_pos_iff.mpr hmem
      omega
    · rename_i hmem
      have h0 : ctx.completed_intents.count t = 0 := by
        simpa [List.count_eq_zero] using hmem
      simp [List.count_append, h0]
  · rintro i rfl hi
    exact flagOf_mark_completed ctx i hi

/-- Witness for C8 at a concrete context and task. -/
theorem C8_witness :
    ({ } : TripContext).completed_intents.count (some "BOOK_FLIGHT") ≤ 1 ∧
    (({ } : TripContext).mark_completed (some "BOOK_FLIGHT")).mark_completed
        (some "BOOK_FLIGHT") =
      ({ } : TripContext).mark_completed (some "BOOK_FLIGHT") ∧
    (({ } : TripContext).mark_completed
          (some "BOOK_FLIGHT")).completed_intents.count (some "BOOK_FLIGHT") = 1 :=
  ⟨by decide,
    (C8_mark_completed_idempotent { } (some "BOOK_FLIGHT") (by decide)).1,
    (C8_mark_completed_idempotent { } (some "BOOK_FLIGHT") (by decide)).2.1⟩

/-- C10: mark_completed on a task identifier owning no Booking Record (an
informational task, an arbitrary string, or Python None) leaves every
booking record untouched, yet still appends the identifier to the
completed-intents list when absent, so the list can hold non-booking
entries. -/
theorem C10_mark_completed_no_booking (ctx : TripContext) (t : Option String)
    (hnone : ctx.get_booking t = none) :
    (ctx.mark_completed t).flight = ctx.flight ∧
    (ctx.mark_completed t).accommodation = ctx.accommodation ∧
    (ctx.mark_completed t).activity = ctx.activity ∧
    (ctx.mark_completed t).completed_intents =
      (if t ∈ ctx.completed_intents then ctx.completed_intents
       else ctx.completed_intents ++ [t]) ∧
    t ∈ (ctx.mark_completed t).completed_intents := by
  have hF : t ≠ some "BOOK_FLIGHT" := by
    rintro rfl; simp [TripContext.get_booking] at hnone
  have hA : t ≠ some "BOOK_ACCOMMODATION" := by
    rintro rfl; simp [TripContext.get_booking] at hnone
  have hV : t ≠ some "BOOK_ACTIVITY" := by
    rintro rfl; simp [TripContext.get_booking] at hnone
  exact ⟨by rw [mark_completed_flight, if_neg hF],
    by rw [mark_completed_accommodation, if_neg hA],
    by rw [mark_completed_activity, if_neg hV],
    mark_completed_intents ctx t,
    mem_mark_completed ctx t⟩

/-- Witness for C10: marking the informational compare-cities task on a
fresh context leaves all records untouched and records the identifier. -/
theorem C10_witness :
    ({ } : TripContext).get_booking (some "COMPARE_CITIES") = none ∧
    (({ } : TripContext).mark_completed (some "COMPARE_CITIES")).completed_intents =
      [some "COMPARE_CITIES"] ∧
    (({ } : TripContext).mark_completed (some "COMPARE_CITIES")).flight =
      ({ } : TripContext).flight :=
  ⟨by decide,
    by
      have h := (C10_mark_completed_no_booking { } (some "COMPARE_CITIES") (by decide)).2.2.2.1
      simpa using h,
    (C10_mark_completed_no_booking { } (some "COMPARE_CITIES") (by decide)).1⟩

/-! ## C6: carryover round-trip -/

/-- Looking up the key just inserted. -/
theorem lookupStr_dinsert_self {α : Type} (d : List (String × α)) (k : String) (v : α) :
    lookupStr (dinsert d k v) k = some v := by
  induction d with
  | nil => simp [dinsert, lookupStr]
  | cons hd tl ih =>
      obtain ⟨k2, w⟩ := hd
      by_cases h : k2 = k <;> simp [dinsert, lookupStr, h, ih]

/-- Inserting one key does not change lookups of another. -/
theorem lookupStr_dinsert_ne {α : Type} (d : List (String × α)) (k k2 : String)
    (v : α) (h : k2 ≠ k) : lookupStr (dinsert d k v) k2 = lookupStr d k2 := by
  have hk : ¬(k = k2) := fun hh => h hh.symm
  induction d with
  | nil => simp [dinsert, lookupStr, hk]
  | cons hd tl ih =>
      obtain ⟨k3, w⟩ := hd
      by_cases h3 : k3 = k
      · subst h3
        simp [dinsert, lookupStr, hk]
      · by_cases h2 : k3 = k2 <;> simp [dinsert, lookupStr, h3, h2, hk, h, ih]

/-- A fold over pairs none of whose targets is the key leaves its lookup
unchanged. -/
theorem buildCarryover_lookup_of_not_target (get : String → Option PyVal)
    (pairs : List (String × String)) (k : String)
    (h : ∀ p ∈ pairs, p.2 ≠ k) (acc : List (String × PyVal)) :
    lookupStr (buildCarryover get pairs acc) k = lookupStr acc k := by
  induction pairs generalizing acc with
  | nil => rfl
  | cons p rest ih =>
      obtain ⟨src, tgt⟩ := p
      have htgt : tgt ≠ k := h (src, tgt) (List.mem_cons_self _ _)
      have hrest : ∀ p ∈ rest, p.2 ≠ k := fun p hp => h p (List.mem_cons_of_mem _ hp)
      cases hg : get src with
      | none => simp [buildCarryover, hg, ih hrest]
      | some w =>
          simp [buildCarryover, hg, ih hrest, lookupStr_dinsert_ne _ _ _ _ (Ne.symm htgt)]

/-- The central carryover lemma: if the source slot holds a value and the
targets of the table entry are distinct, the built carryover dict maps the
target slot of that pair to exactly that value. -/
theorem buildCarryover_lookup (get : String → Option PyVal)
    {f g : String} {v : PyVal} (pairs : List (String × String))
    (hmem : (f, g) ∈ pairs) (hnodup : (pairs.map Prod.snd).Nodup)
    (hv : get f = some v) (acc : List (String × PyVal)) :
    lookupStr (buildCarryover get pairs acc) g = some v := by
  induction pairs generalizing acc with
  | nil => cases hmem
  | cons p rest ih =>
      obtain ⟨src, tgt⟩ := p
      simp only [List.map_cons, List.nodup_cons] at hnodup
      rcases List.mem_cons.mp hmem with heq | hrest
      · obtain ⟨rfl, rfl⟩ := Prod.mk.injEq .. ▸ heq
        have hnot : ∀ p ∈ rest, p.2 ≠ g := by
          intro p hp hpg
          exact hnodup.1 (hpg ▸ List.mem_map_of_mem Prod.snd hp)
        simp only [buildCarryover, hv]
        rw [buildCarryover_lookup_of_not_target _ _ _ hnot, lookupStr_dinsert_self]
      · cases hg : get src with
        | none => simpa [buildCarryover, hg] using ih hrest hnodup.2 _
        | some w => simpa [buildCarryover, hg] using ih hrest hnodup.2 _

/-- One direction of the carryover: a value held in the mapped source field
of the source record appears, keyed by the target field, in the computed
carryover values. -/
theorem carryForward (A B f g : String) (ctx : TripContext) (v : PyVal)
    (hfg : (f, g) ∈ get_carryover_slots A B)
    (hsrc : ctx.attrOf A f = some v) :
    lookupStr (ctx.get_carryover_values A B) g = some v := by
  unfold get_carryover_slots at hfg
  split_ifs at hfg with h1 h2 h3 h4 h5 h6
  · obtain ⟨rfl, rfl⟩ := h1
    simp only [TripContext.attrOf, TripContext.get_booking, reduceIte] at hsrc
    simp only [TripContext.get_carryover_values, TripContext.get_booking,
      get_carryover_slots, reduceIte]
    exact buildCarryover_lookup _ _ hfg (by decide) hsrc []
  · obtain ⟨rfl, rfl⟩ := h2
    simp only [TripContext.attrOf, TripContext.get_booking, reduceIte] at hsrc
    simp only [TripContext.get_carryover_values, TripContext.get_booking,
      get_carryover_slots, reduceIte]
    exact buildCarryover_lookup _ _ hfg (by decide) hsrc []
  · obtain ⟨rfl, rfl⟩ := h3
    simp only [TripContext.attrOf, TripContext.get_booking, reduceIte] at hsrc
    simp only [TripContext.get_carryover_values, TripContext.get_booking,
      get_carryover_slots, reduceIte]
    exact buildCarryover_lookup _ _ hfg (by decide) hsrc []
  · obtain ⟨rfl, rfl⟩ := h4
    simp only [TripContext.attrOf, TripContext.get_booking, reduceIte] at hsrc
    simp only [TripContext.get_carryover_values, TripContext.get_booking,
      get_carryover_slots, reduceIte]
    exact buildCarryover_lookup _ _ hfg (by decide) hsrc []
  · obtain ⟨rfl, rfl⟩ := h5
    simp only [TripContext.attrOf, TripContext.get_booking, reduceIte] at hsrc
    simp only [TripContext.get_carryover_values, TripContext.get_booking,
      get_carryover_slots, reduceIte]
    exact buildCarryover_lookup _ _ hfg (by decide) hsrc []
  · obtain ⟨rfl, rfl⟩ := h6
    simp only [TripContext.attrOf, TripContext.get_booking, reduceIte] at hsrc
    simp only [TripContext.get_carryover_values, TripContext.get_booking,
      get_carryover_slots, reduceIte]
    exact buildCarryover_lookup _ _ hfg (by decide) hsrc []
  · exact absurd hfg (List.not_mem_nil _)

/-- C6: for every pair of booking tasks with a Carryover Table entry and
every mapped source/target field pair, a value held in the source field is
carried to the target field, and after writing it into the target record the
reverse table entry carries it back to the original field with the same
value. -/
theorem C6_carryover_round_trip (A B f g : String) (ctx : TripContext) (v : PyVal)
    (hfg : (f, g) ∈ get_carryover_slots A B)
    (hsrc : ctx.attrOf A f = some v) :
    lookupStr (ctx.get_carryover_values A B) g = some v ∧
    lookupStr (((ctx.setattrFor (some B) g (some v)).get_carryover_values B A)) f
      = some v := by
  have hback : (g, f) ∈ get_carryover_slots B A ∧
      (ctx.setattrFor (some B) g (some v)).attrOf B g = some v := by
    unfold get_carryover_slots at hfg
    split_ifs at hfg with h1 h2 h3 h4 h5 h6
    · obtain ⟨rfl, rfl⟩ := h1
      fin_cases hfg <;>
        exact ⟨by decide, by
          simp [TripContext.setattrFor, TripContext.attrOf, TripContext.get_booking,
            Booking.getattrB, AccommodationBooking.setattrA, AccommodationBooking.getattrA]⟩
    · obtain ⟨rfl, rfl⟩ := h2
      fin_cases hfg <;>
        exact ⟨by decide, by
          simp [TripContext.setattrFor, TripContext.attrOf, TripContext.get_booking,
            Booking.getattrB, ActivityBooking.setattrV, ActivityBooking.getattrV]⟩
    · obtain ⟨rfl, rfl⟩ := h3
      fin_cases hfg <;>
        exact ⟨by decide, by
          simp [TripContext.setattrFor, TripContext.attrOf, TripContext.get_booking,
            Booking.getattrB, FlightBooking.setattrF, FlightBooking.getattrF]⟩
    · obtain ⟨rfl, rfl⟩ := h4
      fin_cases hfg <;>
        exact ⟨by decide, by
          simp [TripContext.setattrFor, TripContext.attrOf, TripContext.get_booking,
            Booking.getattrB, ActivityBooking.setattrV, ActivityBooking.getattrV]⟩
    · obtain ⟨rfl, rfl⟩ := h5
      fin_cases hfg <;>
        exact ⟨by decide, by
          simp [TripContext.setattrFor, TripContext.attrOf, TripContext.get_booking,
            Booking.getattrB, FlightBooking.setattrF, FlightBooking.getattrF]⟩
    · obtain ⟨rfl, rfl⟩ := h6
      fin_cases hfg <;>
        exact ⟨by decide, by
          simp [TripContext.setattrFor, TripContext.attrOf, TripContext.get_booking,
            Booking.getattrB, AccommodationBooking.setattrA, AccommodationBooking.getattrA]⟩
    · exact absurd hfg (List.not_mem_nil _)
  exact ⟨carryForward A B f g ctx v hfg hsrc,
    carryForward B A g f _ v hback.1 hback.2⟩

/-- Witness for C6 at a concrete context: a destination carried from flight
to accommodation and back. -/
theorem C6_witness :
    (("destination", "destination") ∈
        get_carryover_slots "BOOK_FLIGHT" "BOOK_ACCOMMODATION") ∧
    ({ flight := { destination := some (.str "Paris") } } :
        TripContext).attrOf "BOOK_FLIGHT" "destination" = some (.str "Paris") ∧
    lookupStr (({ flight := { destination := some (.str "Paris") } } :
        TripContext).get_carryover_values "BOOK_FLIGHT" "BOOK_ACCOMMODATION")
        "destination" = some (.str "Paris") :=
  ⟨by decide, by decide,
    (C6_carryover_round_trip "BOOK_FLIGHT" "BOOK_ACCOMMODATION"
      "destination" "destination"
      { flight := { destination := some (.str "Paris") } } (.str "Paris")
      (by decide) (by decide)).1⟩

/-! ## C1 and C4: the pending-confirmation branch -/

/-- C1: with a pending confirmation (lastAction ASK_CONFIRMATION), an active
booking task, and a recognized booking intent this turn, the engine maps the
normalized confirmation slot answer: yes completes (confirmed set, record
marked completed, completion action of the active task returned), no yields
REQUEST_SLOT_CHANGE, and an unclear answer re-emits ASK_CONFIRMATION leaving
the whole state (in particular confirmed and the booking record) unchanged. -/
theorem C1_confirmation_branch (s : DialogueState) (nlu : NLUOutput) (u : String)
    (t j : String)
    (hla : s.last_action = some "ASK_CONFIRMATION")
    (hcur : s.current_intent = some t) (ht : t ∈ BOOKING_INTENTS)
    (hint : nlu.intent = some j) (hj : j ∈ BOOKING_INTENTS) :
    (normalizeYesNo (sget nlu.slots "confirmation") = some "yes" →
       dmDecideRuleBased s nlu u =
         .ok (getCompleteAction (some t),
           { s with confirmed := true,
                    context := s.context.mark_completed (some t),
                    last_action := some (getCompleteAction (some t)) }) ∧
       flagOf t (s.context.mark_completed (some t)) = true ∧
       getCompleteAction (some t) ∈
         ["COMPLETE_FLIGHT_BOOKING", "COMPLETE_ACCOMMODATION_BOOKING",
          "COMPLETE_ACTIVITY_BOOKING"]) ∧
    (normalizeYesNo (sget nlu.slots "confirmation") = some "no" →
       dmDecideRuleBased s nlu u =
         .ok ("REQUEST_SLOT_CHANGE",
           { s with last_action := some "REQUEST_SLOT_CHANGE" })) ∧
    (normalizeYesNo (sget nlu.slots "confirmation") = none →
       dmDecideRuleBased s nlu u = .ok ("ASK_CONFIRMATION", s)) := by
  have hflag : flagOf t (s.context.mark_completed (some t)) = true :=
    flagOf_mark_completed s.context t ht
  simp only [BOOKING_INTENTS, List.mem_cons, List.not_mem_nil, or_false] at ht hj
  refine ⟨fun hyes => ⟨?_, hflag, ?_⟩, fun hno => ?_, fun hun => ?_⟩
  · rcases hj with rfl | rfl | rfl <;>
      simp [dmDecideRuleBased, INTENTS, hla, hcur, hint, hyes]
  · rcases ht with rfl | rfl | rfl <;> simp [getCompleteAction]
  · rcases hj with rfl | rfl | rfl <;>
      simp [dmDecideRuleBased, INTENTS, hla, hcur, hint, hno]
  · rcases hj with rfl | rfl | rfl <;>
      simp [dmDecideRuleBased, INTENTS, hla, hcur, hint, hun]

/-- A concrete dialogue state awaiting confirmation of a fully-filled
flight booking (as reached after one BOOK_FLIGHT turn giving every slot). -/
def exConfirmState : DialogueState :=
  { context := { flight := { origin := some (.str "Rome"),
                             destination := some (.str "Paris"),
                             departure_date := some (.str "2026-03-15"),
                             num_passengers := some (.int 2),
                             budget_level := some (.str "medium") } },
    current_intent := some "BOOK_FLIGHT",
    last_action := some "ASK_CONFIRMATION" }

/-- Witness for C1: a concrete yes answer completes the flight booking. -/
theorem C1_witness :
    normalizeYesNo (sget [("confirmation", some (.str "yes"))] "confirmation")
        = some "yes" ∧
    dmDecideRuleBased exConfirmState
        ⟨some "BOOK_FLIGHT", [("confirmation", some (.str "yes"))]⟩ "" =
      .ok (getCompleteAction (some "BOOK_FLIGHT"),
        { exConfirmState with
            confirmed := true,
            context := exConfirmState.context.mark_completed (some "BOOK_FLIGHT"),
            last_action := some (getCompleteAction (some "BOOK_FLIGHT")) }) :=
  ⟨by decide,
    ((C1_confirmation_branch exConfirmState
        ⟨some "BOOK_FLIGHT", [("confirmation", some (.str "yes"))]⟩ ""
        "BOOK_FLIGHT" "BOOK_FLIGHT" rfl rfl (by decide) rfl (by decide)).1
      (by decide)).1⟩

/-- C4 counterexample: with the confirmation slot absent, a raw utterance
that plainly says yes (or no) does not move the engine: it re-emits
ASK_CONFIRMATION with the state untouched, instead of taking the yes branch
(or the no branch) as the claim asserts. -/
theorem C4_counterexample :
    sget ([] : SlotMap) "confirmation" = none ∧
    dmDecideRuleBased exConfirmState ⟨some "BOOK_FLIGHT", []⟩ "yes" =
      .ok ("ASK_CONFIRMATION", exConfirmState) ∧
    dmDecideRuleBased exConfirmState ⟨some "BOOK_FLIGHT", []⟩ "no" =
      .ok ("ASK_CONFIRMATION", exConfirmState) := by
  refine ⟨rfl, ?_, ?_⟩ <;> rfl

/-- C4 amended: the rule-based engine normalizes only the confirmation slot
value; there is no fallback to the raw utterance.  With the slot absent the
answer counts as unclear and ASK_CONFIRMATION is re-emitted whatever the
utterance says, and more generally the returned action and state never
depend on the utterance argument. -/
theorem C4_confirmation_slot_only (s : DialogueState) (nlu : NLUOutput)
    (u1 u2 : String) (j : String)
    (hla : s.last_action = some "ASK_CONFIRMATION")
    (hint : nlu.intent = some j) (hj : j ∈ BOOKING_INTENTS)
    (hconf : sget nlu.slots "confirmation" = none) :
    dmDecideRuleBased s nlu u1 = .ok ("ASK_CONFIRMATION", s) ∧
    dmDecideRuleBased s nlu u1 = dmDecideRuleBased s nlu u2 := by
  constructor
  · simp only [BOOKING_INTENTS, List.mem_cons, List.not_mem_nil, or_false] at hj
    rcases hj with rfl | rfl | rfl <;>
      simp [dmDecideRuleBased, INTENTS, hla, hint, hconf, normalizeYesNo]
  · rfl

/-- Witness for C4 amended at the concrete confirmation state. -/
theorem C4_witness :
    exConfirmState.last_action = some "ASK_CONFIRMATION" ∧
    sget ([] : SlotMap) "confirmation" = none ∧
    dmDecideRuleBased exConfirmState ⟨some "BOOK_FLIGHT", []⟩ "yes" =
      .ok ("ASK_CONFIRMATION", exConfirmState) :=
  ⟨rfl, rfl,
    (C4_confirmation_slot_only exConfirmState ⟨some "BOOK_FLIGHT", []⟩
      "yes" "" "BOOK_FLIGHT" rfl rfl (by decide) rfl).1⟩

/-! ## C3: carryover gating -/

/-- On a booking-intent turn whose previous action is none of the three
response-loop triggers, the engine runs the shared tail (state update,
gating, slot requests, confirmation, completion). -/
theorem dmDecide_eq_tail (s : DialogueState) (nlu : NLUOutput) (u : String)
    (i : String) (hint : nlu.intent = some i) (hi : i ∈ BOOKING_INTENTS)
    (h1 : s.last_action ≠ some "ASK_CONFIRMATION")
    (h2 : s.last_action ≠ some "OFFER_SLOT_CARRYOVER")
    (h3 : s.last_action ≠ some "REQUEST_SLOT_CHANGE") :
    dmDecideRuleBased s nlu u = .ok (dmTail s nlu) := by
  simp only [BOOKING_INTENTS, List.mem_cons, List.not_mem_nil, or_false] at hi
  rcases hi with rfl | rfl | rfl <;>
    simp [dmDecideRuleBased, dmAfterOffer, INTENTS, hint, h1, h2, h3]

/-- After the state update of a booking-intent turn, the active task is that
booking intent. -/
theorem updateState_current_intent (s : DialogueState) (nlu : NLUOutput)
    (i : String) (hint : nlu.intent = some i) (hi : i ∈ BOOKING_INTENTS) :
    (updateStateWithNLU s nlu).current_intent = some i := by
  simp only [BOOKING_INTENTS, List.mem_cons, List.not_mem_nil, or_false] at hi
  unfold updateStateWithNLU
  rw [hint]
  rcases hi with rfl | rfl | rfl <;>
    · simp only [INTENTS, DialogueState.get_current_booking]
      split
      · simp_all
      · split <;> split <;> rfl

/-- C3 amended: on a turn reaching the carryover-gating step (booking
intent, lastAction outside the three response loops, and no slot value
written under a read-only or method attribute name — a turn that does
write one raises inside the state update or the missing-slot call and
never reaches the gating step; genuine NLU output, keyed by recognized
slot names, always satisfies this) whose post-update state
carries a non-empty pendingCarryover not currently being offered: if some
target field is among the missing slots, the offer flag is set and
OFFER_SLOT_CARRYOVER is returned (no missing-slot request that turn); if the
record still has missing slots but no target field overlaps them, the
pending carryover is discarded and the first missing slot is requested.
(When the record has no missing slots the gating is skipped entirely and the
pending carryover survives the turn: see the counterexample.) -/
theorem C3_carryover_gating (s : DialogueState) (nlu : NLUOutput) (u : String)
    (i : String) (pend : List (String × PyVal))
    (hint : nlu.intent = some i) (hi : i ∈ BOOKING_INTENTS)
    (h1 : s.last_action ≠ some "ASK_CONFIRMATION")
    (h2 : s.last_action ≠ some "OFFER_SLOT_CARRYOVER")
    (h3 : s.last_action ≠ some "REQUEST_SLOT_CHANGE")
    (hkeys : ∀ kv ∈ nlu.slots, kv.2 ≠ none →
      kv.1 ∉ ["__class__", "__dict__", "__weakref__", "missing_slots"])
    (hpend : (updateStateWithNLU s nlu).pending_carryover = some pend)
    (hne : pend ≠ [])
    (hoff : (updateStateWithNLU s nlu).awaiting_carryover_response = false) :
    (pend.any (fun kv => kv.1 ∈ (updateStateWithNLU s nlu).get_missing_slots) = true →
       dmDecideRuleBased s nlu u =
         .ok ("OFFER_SLOT_CARRYOVER",
           { updateStateWithNLU s nlu with
               awaiting_carryover_response := true,
               last_action := some "OFFER_SLOT_CARRYOVER" })) ∧
    (pend.any (fun kv => kv.1 ∈ (updateStateWithNLU s nlu).get_missing_slots) = false →
     (updateStateWithNLU s nlu).get_missing_slots ≠ [] →
       dmDecideRuleBased s nlu u =
         .ok (reqMissing (updateStateWithNLU s nlu).get_missing_slots.headI,
           { updateStateWithNLU s nlu with
               pending_carryover := none,
               last_action :=
                 some (reqMissing (updateStateWithNLU s nlu).get_missing_slots.headI) })) := by
  have hstep := dmDecide_eq_tail s nlu u i hint hi h1 h2 h3
  have hcur := updateState_current_intent s nlu i hint hi
  have hitr : intentTruthy (updateStateWithNLU s nlu).current_intent = true := by
    simp only [BOOKING_INTENTS, List.mem_cons, List.not_mem_nil, or_false] at hi
    rcases hi with rfl | rfl | rfl <;> simp [hcur, intentTruthy]
  constructor
  · intro hov
    have hmne : (updateStateWithNLU s nlu).get_missing_slots ≠ [] := by
      obtain ⟨kv, hkv, hmem⟩ := List.any_eq_true.mp hov
      exact List.ne_nil_of_mem (by simpa using hmem)
    rw [hstep]
    unfold dmTail
    simp [hitr, hpend, hoff, pendingTruthy, hne, hov, List.isEmpty_iff, hmne]
  · intro hov hmne
    rw [hstep]
    obtain ⟨m, rest, hm⟩ := List.exists_cons_of_ne_nil hmne
    rw [hm] at hov
    unfold dmTail
    simp [hitr, hpend, hoff, pendingTruthy, hne, List.isEmpty_iff, hmne, hm, dmFinal]
    simpa using hov

/-- Turn 1 of the C3 run: a flight booking given all five required slots. -/
def c3nlu1 : NLUOutput :=
  ⟨some "BOOK_FLIGHT",
   [("origin", some (.str "Rome")), ("destination", some (.str "Paris")),
    ("departure_date", some (.str "2026-03-15")), ("num_passengers", some (.int 2)),
    ("budget_level", some (.str "medium"))]⟩

/-- Turn 2 of the C3 run: the user confirms, completing the flight. -/
def c3nlu2 : NLUOutput := ⟨some "BOOK_FLIGHT", [("confirmation", some (.str "yes"))]⟩

/-- Turn 3 of the C3 run: switch to accommodation, supplying all five
required slots in the same turn. -/
def c3nlu3 : NLUOutput :=
  ⟨some "BOOK_ACCOMMODATION",
   [("destination", some (.str "Paris")), ("check_in_date", some (.str "2026-04-01")),
    ("check_out_date", some (.str "2026-04-05")), ("num_guests", some (.int 2)),
    ("budget_level", some (.str "medium"))]⟩

/-- State after turn 1 (awaiting confirmation of the flight). -/
def c3s1 : DialogueState := afterTurn initialState c3nlu1

/-- State after turn 2 (flight completed). -/
def c3s2 : DialogueState := afterTurn c3s1 c3nlu2

/-- The carryover computed when switching from the completed flight to the
accommodation task on turn 3. -/
def c3pend : List (String × PyVal) :=
  [("destination", .str "Paris"), ("num_guests", .int 2),
   ("check_in_date", .str "2026-03-15"), ("budget_level", .str "medium")]

/-- C3 counterexample: on a run from the initial state, turn 3 reaches the
gating step with a non-empty pendingCarryover, not being offered, and with
no missing slots (so no target field overlaps the missing slots); the claim
says pendingCarryover is discarded by the end of the turn, but the engine
skips the gating entirely and the pending carryover survives the turn. -/
theorem C3_counterexample :
    c3nlu3.intent = some "BOOK_ACCOMMODATION" ∧
    c3s2.last_action = some "COMPLETE_FLIGHT_BOOKING" ∧
    (updateStateWithNLU c3s2 c3nlu3).pending_carryover = some c3pend ∧
    c3pend ≠ [] ∧
    (updateStateWithNLU c3s2 c3nlu3).awaiting_carryover_response = false ∧
    (updateStateWithNLU c3s2 c3nlu3).get_missing_slots = [] ∧
    dmDecideRuleBased c3s2 c3nlu3 "" =
      .ok ("ASK_CONFIRMATION",
        { updateStateWithNLU c3s2 c3nlu3 with last_action := some "ASK_CONFIRMATION" }) ∧
    (afterTurn c3s2 c3nlu3).pending_carryover = some c3pend :=
  ⟨rfl, rfl, rfl, by decide, rfl, rfl, rfl, rfl⟩

/-- Witness for the C3 amended theorem: the same run one turn earlier, where
the switch to accommodation happens with no slots, the carryover overlaps
the missing slots, and the offer is emitted. -/
theorem C3_witness :
    (updateStateWithNLU c3s2 ⟨some "BOOK_ACCOMMODATION", []⟩).pending_carryover =
        some c3pend ∧
    (c3pend.any (fun kv =>
        kv.1 ∈ (updateStateWithNLU c3s2
          ⟨some "BOOK_ACCOMMODATION", []⟩).get_missing_slots)) = true ∧
    dmDecideRuleBased c3s2 ⟨some "BOOK_ACCOMMODATION", []⟩ "" =
      .ok ("OFFER_SLOT_CARRYOVER",
        { updateStateWithNLU c3s2 ⟨some "BOOK_ACCOMMODATION", []⟩ with
            awaiting_carryover_response := true,
            last_action := some "OFFER_SLOT_CARRYOVER" }) :=
  ⟨rfl, by decide,
    (C3_carryover_gating c3s2 ⟨some "BOOK_ACCOMMODATION", []⟩ ""
      "BOOK_ACCOMMODATION" c3pend rfl (by decide) (by decide) (by decide)
      (by decide) (by decide) rfl (by decide) rfl).1 (by decide)⟩

/-! ## C9: the compare-cities scratch map -/

/-- The state update of a turn never touches the compare-cities data. -/
theorem updateState_compare (s : DialogueState) (nlu : NLUOutput) :
    (updateStateWithNLU s nlu).compare_cities_data = s.compare_cities_data := by
  unfold updateStateWithNLU
  repeat' first
    | rfl
    | split
    | dsimp only

/-- The final stretch never touches the compare-cities data. -/
theorem dmFinal_compare (s : DialogueState) (missing : List String) :
    (dmFinal s missing).2.compare_cities_data = s.compare_cities_data := by
  unfold dmFinal
  repeat' split
  all_goals rfl

/-- The shared tail never touches the compare-cities data. -/
theorem dmTail_compare (s : DialogueState) (nlu : NLUOutput) :
    (dmTail s nlu).2.compare_cities_data = s.compare_cities_data := by
  unfold dmTail
  repeat' first
    | (exact updateState_compare s nlu)
    | (rw [dmFinal_compare]
       exact updateState_compare s nlu)
    | split
    | dsimp only

/-- The offer-response mutation never touches the compare-cities data. -/
theorem applyOfferResponse_compare (s : DialogueState) (conf : String) :
    (applyOfferResponse s conf).compare_cities_data = s.compare_cities_data := by
  unfold applyOfferResponse
  repeat' split
  all_goals rfl

/-- Exhaustive outcomes of the slot-change branch followed by the tail:
outside the slot-change loop it runs the tail; inside it, it either re-asks,
clears a recognized attribute of the active record and requests it, or (only
on a truthy non-string slot_name with a live booking) raises. -/
theorem dmAfterOffer_cases (s : DialogueState) (nlu : NLUOutput) :
    (s.last_action ≠ some "REQUEST_SLOT_CHANGE" ∧
      dmAfterOffer s nlu = .ok (dmTail s nlu)) ∨
    (s.last_action = some "REQUEST_SLOT_CHANGE" ∧
      (dmAfterOffer s nlu =
          .ok ("REQUEST_SLOT_CHANGE",
            { s with last_action := some "REQUEST_SLOT_CHANGE" }) ∨
       (∃ name b, s.get_current_booking = some b ∧ b.hasattrB name = true ∧
          sget nlu.slots "slot_name" = some (.str name) ∧
          dmAfterOffer s nlu =
            .ok (reqMissing name,
              { s with context := s.context.setattrFor s.current_intent name none,
                       last_action := some (reqMissing name) })) ∨
       (∃ v, sget nlu.slots "slot_name" = some v ∧ v.truthy = true ∧
          (∀ nm, v ≠ .str nm) ∧
          dmAfterOffer s nlu = .error "TypeError: attribute name must be string"))) := by
  by_cases hrsc : s.last_action = some "REQUEST_SLOT_CHANGE"
  · refine Or.inr ⟨hrsc, ?_⟩
    unfold dmAfterOffer
    simp only [hrsc, reduceIte]
    cases hstc : sget nlu.slots "slot_name" with
    | none => left; simp [truthyO]
    | some v =>
        cases v with
        | str name =>
            by_cases hname : name = ""
            · left; simp [truthyO, PyVal.truthy, hname]
            · have htr : truthyO (some (.str name)) = true := by
                simp [truthyO, PyVal.truthy, hname]
              cases hb : s.get_current_booking with
              | none => left; simp [htr, hb]
              | some b =>
                  by_cases hhas : b.hasattrB name = true
                  · exact Or.inr (Or.inl ⟨name, b, rfl, hhas, rfl, by simp [htr, hhas]⟩)
                  · left; simp [htr, hb, hhas]
        | int n =>
            by_cases hn : n = 0
            · left; simp [truthyO, PyVal.truthy, hn]
            · cases hb : s.get_current_booking with
              | none => left; simp [truthyO, PyVal.truthy, hn, hb]
              | some b =>
                  refine Or.inr (Or.inr ⟨.int n, rfl, by simp [PyVal.truthy, hn], by simp, ?_⟩)
                  simp [truthyO, PyVal.truthy, hn, hb]
        | bool bb =>
            cases bb with
            | false => left; simp [truthyO, PyVal.truthy]
            | true =>
                cases hb : s.get_current_booking with
                | none => left; simp [truthyO, PyVal.truthy, hb]
                | some b =>
                    refine Or.inr (Or.inr ⟨.bool true, rfl, by simp [PyVal.truthy], by simp, ?_⟩)
                    simp [truthyO, PyVal.truthy, hb]
  · refine Or.inl ⟨hrsc, ?_⟩
    unfold dmAfterOffer
    simp only [hrsc, reduceIte]

/-- Both components of an equality of ok-wrapped action/state pairs. -/
theorem ok_pair_inj {a b : String} {x y : DialogueState}
    (h : (Except.ok (a, x) : Except String (String × DialogueState)) = .ok (b, y)) :
    a = b ∧ x = y :=
  ⟨congrArg Prod.fst (Except.ok.inj h), congrArg Prod.snd (Except.ok.inj h)⟩

/-- The slot-change branch and tail never touch the compare-cities data. -/
theorem dmAfterOffer_compare (s : DialogueState) (nlu : NLUOutput)
    (a : String) (s2 : DialogueState) (h : dmAfterOffer s nlu = .ok (a, s2)) :
    s2.compare_cities_data = s.compare_cities_data := by
  rcases dmAfterOffer_cases s nlu with ⟨-, hc⟩ | ⟨-, hc | hc | hc⟩
  · have h2 : (dmTail s nlu).2 = s2 :=
      congrArg Prod.snd (Except.ok.inj (hc.symm.trans h))
    rw [← h2]
    exact dmTail_compare s nlu
  · obtain ⟨-, h2⟩ := ok_pair_inj (hc.symm.trans h)
    rw [← h2]
  · obtain ⟨name, b, -, -, -, hc⟩ := hc
    obtain ⟨-, h2⟩ := ok_pair_inj (hc.symm.trans h)
    rw [← h2]
  · obtain ⟨-, -, -, -, hc⟩ := hc
    rw [hc] at h
    exact absurd h (by simp)

/-- Exhaustive outcomes of one turn of the rule-based engine: goodbye,
clarification, one of the four compare-cities answers over the merged
scratch data, or — for a recognized booking intent — the confirmation loop,
the offer loop, or the slot-change branch followed by the shared tail. -/
theorem dmDecide_cases (s : DialogueState) (nlu : NLUOutput) (u : String) :
    (nlu.intent = some "END_DIALOGUE" ∧
       dmDecideRuleBased s nlu u =
         .ok ("GOODBYE", { s with last_action := some "GOODBYE" })) ∨
    (dmDecideRuleBased s nlu u =
       .ok ("ASK_CLARIFICATION", { s with last_action := some "ASK_CLARIFICATION" })) ∨
    (nlu.intent = some "COMPARE_CITIES" ∧ ∃ a2,
       (a2 = reqMissing "city1" ∨ a2 = reqMissing "city2" ∨
        a2 = reqMissing "activity_category" ∨ a2 = "COMPARE_CITIES_RESULT") ∧
       dmDecideRuleBased s nlu u =
         .ok (a2, { s with current_intent := some "COMPARE_CITIES",
                           compare_cities_data :=
                             mergeCompare s.compare_cities_data nlu.slots,
                           last_action := some a2 })) ∨
    (∃ i, nlu.intent = some i ∧ i ∈ BOOKING_INTENTS ∧
       ((s.last_action = some "ASK_CONFIRMATION" ∧
           (dmDecideRuleBased s nlu u =
              .ok ("REQUEST_SLOT_CHANGE",
                { s with last_action := some "REQUEST_SLOT_CHANGE" }) ∨
            dmDecideRuleBased s nlu u =
              .ok (getCompleteAction s.current_intent,
                { s with confirmed := true,
                         context := s.context.mark_completed s.current_intent,
                         last_action := some (getCompleteAction s.current_intent) }) ∨
            dmDecideRuleBased s nlu u = .ok ("ASK_CONFIRMATION", s))) ∨
        (s.last_action = some "OFFER_SLOT_CARRYOVER" ∧
           (dmDecideRuleBased s nlu u =
              .ok ("OFFER_SLOT_CARRYOVER",
                { s with last_action := some "OFFER_SLOT_CARRYOVER" }) ∨
            ∃ c, normalizeYesNo (sget nlu.slots "confirmation") = some c ∧
              dmDecideRuleBased s nlu u = dmAfterOffer (applyOfferResponse s c) nlu)) ∨
        (s.last_action ≠ some "ASK_CONFIRMATION" ∧
         s.last_action ≠ some "OFFER_SLOT_CARRYOVER" ∧
           dmDecideRuleBased s nlu u = dmAfterOffer s nlu))) := by
  cases hint : nlu.intent with
  | none =>
      refine Or.inr (Or.inl ?_)
      simp [dmDecideRuleBased, hint]
  | some i =>
      by_cases hEnd : i = "END_DIALOGUE"
      · subst hEnd
        exact Or.inl ⟨rfl, by simp [dmDecideRuleBased, hint]⟩
      by_cases hBad : i = "OOD" ∨ i ∉ INTENTS
      · refine Or.inr (Or.inl ?_)
        unfold dmDecideRuleBased
        rw [hint]
        rw [if_neg (by simp [hEnd])]
        rw [if_pos (by simpa using hBad)]
      by_cases hCmp : i = "COMPARE_CITIES"
      · subst hCmp
        refine Or.inr (Or.inr (Or.inl ⟨rfl, ?_⟩))
        by_cases h1 : truthyO (mergeCompare s.compare_cities_data nlu.slots).city1 = true
        · by_cases h2 : truthyO (mergeCompare s.compare_cities_data nlu.slots).city2 = true
          · by_cases h3 : truthyO
                (mergeCompare s.compare_cities_data nlu.slots).activity_category = true
            · exact ⟨"COMPARE_CITIES_RESULT", Or.inr (Or.inr (Or.inr rfl)),
                by simp [dmDecideRuleBased, INTENTS, hint, h1, h2, h3]⟩
            · exact ⟨reqMissing "activity_category", Or.inr (Or.inr (Or.inl rfl)),
                by simp [dmDecideRuleBased, INTENTS, hint, h1, h2, h3]⟩
          · exact ⟨reqMissing "city2", Or.inr (Or.inl rfl),
              by simp [dmDecideRuleBased, INTENTS, hint, h1, h2]⟩
        · exact ⟨reqMissing "city1", Or.inl rfl,
            by simp [dmDecideRuleBased, INTENTS, hint, h1]⟩
      · have hbook : i ∈ BOOKING_INTENTS := by
          obtain ⟨hOOD, hIn⟩ := not_or.mp hBad
          rw [not_not] at hIn
          simp only [INTENTS, List.mem_cons, List.not_mem_nil, or_false] at hIn
          rcases hIn with rfl | rfl | rfl | rfl | rfl <;>
            simp_all [BOOKING_INTENTS]
        refine Or.inr (Or.inr (Or.inr ⟨i, rfl, hbook, ?_⟩))
        have hb2 := hbook
        simp only [BOOKING_INTENTS, List.mem_cons, List.not_mem_nil, or_false] at hb2
        by_cases hAC : s.last_action = some "ASK_CONFIRMATION"
        · refine Or.inl ⟨hAC, ?_⟩
          by_cases hno : normalizeYesNo (sget nlu.slots "confirmation") = some "no"
          · refine Or.inl ?_
            rcases hb2 with rfl | rfl | rfl <;>
              simp [dmDecideRuleBased, INTENTS, hint, hAC, hno]
          by_cases hyes : normalizeYesNo (sget nlu.slots "confirmation") = some "yes"
          · refine Or.inr (Or.inl ?_)
            rcases hb2 with rfl | rfl | rfl <;>
              simp [dmDecideRuleBased, INTENTS, hint, hAC, hno, hyes]
          · refine Or.inr (Or.inr ?_)
            rcases hb2 with rfl | rfl | rfl <;>
              simp [dmDecideRuleBased, INTENTS, hint, hAC, hno, hyes]
        by_cases hOF : s.last_action = some "OFFER_SLOT_CARRYOVER"
        · refine Or.inr (Or.inl ⟨hOF, ?_⟩)
          cases hconf : normalizeYesNo (sget nlu.slots "confirmation") with
          | none =>
              refine Or.inl ?_
              rcases hb2 with rfl | rfl | rfl <;>
                simp [dmDecideRuleBased, INTENTS, hint, hAC, hOF, hconf]
          | some c =>
              refine Or.inr ⟨c, rfl, ?_⟩
              rcases hb2 with rfl | rfl | rfl <;>
                simp [dmDecideRuleBased, INTENTS, hint, hAC, hOF, hconf]
        · refine Or.inr (Or.inr ⟨hAC, hOF, ?_⟩)
          rcases hb2 with rfl | rfl | rfl <;>
            simp [dmDecideRuleBased, INTENTS, hint, hAC, hOF]

/-- Anatomy of a successful turn with respect to the compare-cities data:
either the turn leaves it unchanged, or it is a COMPARE_CITIES turn and the
data is the stored data merged with the non-None incoming values. -/
theorem decide_compare (s : DialogueState) (nlu : NLUOutput) (u : String)
    (a : String) (s2 : DialogueState)
    (h : dmDecideRuleBased s nlu u = .ok (a, s2)) :
    s2.compare_cities_data = s.compare_cities_data ∨
    (nlu.intent = some "COMPARE_CITIES" ∧
     s2.compare_cities_data = mergeCompare s.compare_cities_data nlu.slots) := by
  rcases dmDecide_cases s nlu u with ⟨-, hc⟩ | hc | ⟨hic, a2, -, hc⟩ |
    ⟨i, -, -, ⟨-, hc | hc | hc⟩ | ⟨-, hc | ⟨c, -, hc⟩⟩ | ⟨-, -, hc⟩⟩
  · obtain ⟨-, h2⟩ := ok_pair_inj (hc.symm.trans h)
    rw [← h2]
    exact Or.inl rfl
  · obtain ⟨-, h2⟩ := ok_pair_inj (hc.symm.trans h)
    rw [← h2]
    exact Or.inl rfl
  · obtain ⟨-, h2⟩ := ok_pair_inj (hc.symm.trans h)
    rw [← h2]
    exact Or.inr ⟨hic, rfl⟩
  · obtain ⟨-, h2⟩ := ok_pair_inj (hc.symm.trans h)
    rw [← h2]
    exact Or.inl rfl
  · obtain ⟨-, h2⟩ := ok_pair_inj (hc.symm.trans h)
    rw [← h2]
    exact Or.inl rfl
  · obtain ⟨-, h2⟩ := ok_pair_inj (hc.symm.trans h)
    rw [← h2]
    exact Or.inl rfl
  · obtain ⟨-, h2⟩ := ok_pair_inj (hc.symm.trans h)
    rw [← h2]
    exact Or.inl rfl
  · rw [hc] at h
    refine Or.inl ?_
    rw [dmAfterOffer_compare _ _ _ _ h]
    exact applyOfferResponse_compare s c
  · rw [hc] at h
    exact Or.inl (dmAfterOffer_compare _ _ _ _ h)

/-- The city1 component of the merge. -/
theorem mergeCompare_city1 (cc : CompareCities) (slots : SlotMap) :
    (mergeCompare cc slots).city1 =
      match sget slots "city1" with
      | some v => some v
      | none => cc.city1 := by
  unfold mergeCompare
  cases sget slots "city1" <;> cases sget slots "city2" <;>
    cases sget slots "activity_category" <;> rfl

/-- The city2 component of the merge. -/
theorem mergeCompare_city2 (cc : CompareCities) (slots : SlotMap) :
    (mergeCompare cc slots).city2 =
      match sget slots "city2" with
      | some v => some v
      | none => cc.city2 := by
  unfold mergeCompare
  cases sget slots "city1" <;> cases sget slots "city2" <;>
    cases sget slots "activity_category" <;> rfl

/-- The activity_category component of the merge. -/
theorem mergeCompare_ac (cc : CompareCities) (slots : SlotMap) :
    (mergeCompare cc slots).activity_category =
      match sget slots "activity_category" with
      | some v => some v
      | none => cc.activity_category := by
  unfold mergeCompare
  cases sget slots "city1" <;> cases sget slots "city2" <;>
    cases sget slots "activity_category" <;> rfl

/-- A slot map entry that cannot break a stored truthy compare value: the
key is absent (or None), or carries a truthy value. -/
def compareSlotClean (slots : SlotMap) (k : String) : Prop :=
  sget slots k = none ∨ truthyO (sget slots k) = true

/-- C9 amended: the compare-cities scratch map only grows — a successful
turn either leaves it unchanged (always, when the intent is not
COMPARE_CITIES) or overwrites with non-None incoming values, so a present
key stays present.  Moreover, once all three stored values are truthy, a
COMPARE_CITIES turn whose slot map does not overwrite any of the three keys
with a falsy non-None value (in particular an empty slot map, after any
number of intervening booking turns) immediately returns
COMPARE_CITIES_RESULT and keeps all three values truthy. -/
theorem C9_compare_scratch_monotone_and_result :
    (∀ (s : DialogueState) (nlu : NLUOutput) (u a : String) (s2 : DialogueState),
       dmDecideRuleBased s nlu u = .ok (a, s2) →
       ((s.compare_cities_data.city1.isSome = true →
           s2.compare_cities_data.city1.isSome = true) ∧
        (s.compare_cities_data.city2.isSome = true →
           s2.compare_cities_data.city2.isSome = true) ∧
        (s.compare_cities_data.activity_category.isSome = true →
           s2.compare_cities_data.activity_category.isSome = true))) ∧
    (∀ (s : DialogueState) (nlu : NLUOutput) (u a : String) (s2 : DialogueState),
       dmDecideRuleBased s nlu u = .ok (a, s2) →
       nlu.intent ≠ some "COMPARE_CITIES" →
       s2.compare_cities_data = s.compare_cities_data) ∧
    (∀ (s : DialogueState) (nlu : NLUOutput) (u : String),
       nlu.intent = some "COMPARE_CITIES" →
       truthyO s.compare_cities_data.city1 = true →
       truthyO s.compare_cities_data.city2 = true →
       truthyO s.compare_cities_data.activity_category = true →
       compareSlotClean nlu.slots "city1" →
       compareSlotClean nlu.slots "city2" →
       compareSlotClean nlu.slots "activity_category" →
       dmDecideRuleBased s nlu u =
         .ok ("COMPARE_CITIES_RESULT",
           { s with current_intent := some "COMPARE_CITIES",
                    compare_cities_data :=
                      mergeCompare s.compare_cities_data nlu.slots,
                    last_action := some "COMPARE_CITIES_RESULT" }) ∧
       truthyO (mergeCompare s.compare_cities_data nlu.slots).city1 = true ∧
       truthyO (mergeCompare s.compare_cities_data nlu.slots).city2 = true ∧
       truthyO (mergeCompare s.compare_cities_data nlu.slots).activity_category
         = true) := by
  have hm1 : ∀ (cc : CompareCities) (slots : SlotMap),
      truthyO cc.city1 = true → compareSlotClean slots "city1" →
      truthyO (mergeCompare cc slots).city1 = true := by
    intro cc slots hst hcl
    rw [mergeCompare_city1]
    rcases hcl with hnone | htr
    · rw [hnone]
      exact hst
    · cases hs : sget slots "city1" with
      | none => exact hst
      | some v => rw [hs] at htr; exact htr
  have hm2 : ∀ (cc : CompareCities) (slots : SlotMap),
      truthyO cc.city2 = true → compareSlotClean slots "city2" →
      truthyO (mergeCompare cc slots).city2 = true := by
    intro cc slots hst hcl
    rw [mergeCompare_city2]
    rcases hcl with hnone | htr
    · rw [hnone]
      exact hst
    · cases hs : sget slots "city2" with
      | none => exact hst
      | some v => rw [hs] at htr; exact htr
  have hm3 : ∀ (cc : CompareCities) (slots : SlotMap),
      truthyO cc.activity_category = true → compareSlotClean slots "activity_category" →
      truthyO (mergeCompare cc slots).activity_category = true := by
    intro cc slots hst hcl
    rw [mergeCompare_ac]
    rcases hcl with hnone | htr
    · rw [hnone]
      exact hst
    · cases hs : sget slots "activity_category" with
      | none => exact hst
      | some v => rw [hs] at htr; exact htr
  refine ⟨?_, ?_, ?_⟩
  · intro s nlu u a s2 h
    rcases decide_compare s nlu u a s2 h with hunch | ⟨-, hmerge⟩
    · rw [hunch]
      exact ⟨id, id, id⟩
    · rw [hmerge]
      refine ⟨?_, ?_, ?_⟩ <;> intro hsome
      · rw [mergeCompare_city1]
        cases hs : sget nlu.slots "city1" <;> simp [hsome]
      · rw [mergeCompare_city2]
        cases hs : sget nlu.slots "city2" <;> simp [hsome]
      · rw [mergeCompare_ac]
        cases hs : sget nlu.slots "activity_category" <;> simp [hsome]
  · intro s nlu u a s2 h hni
    rcases decide_compare s nlu u a s2 h with hunch | ⟨hic, -⟩
    · exact hunch
    · exact absurd hic hni
  · intro s nlu u hint h1 h2 h3 hc1 hc2 hc3
    have m1 := hm1 s.compare_cities_data nlu.slots h1 hc1
    have m2 := hm2 s.compare_cities_data nlu.slots h2 hc2
    have m3 := hm3 s.compare_cities_data nlu.slots h3 hc3
    exact ⟨by simp [dmDecideRuleBased, INTENTS, hint, m1, m2, m3], m1, m2, m3⟩

/-- The state after a first COMPARE_CITIES turn that stores an empty-string
city1 together with truthy city2 and activity_category: all three keys are
present. -/
def c9s1 : DialogueState :=
  afterTurn initialState
    ⟨some "COMPARE_CITIES",
     [("city1", some (.str "")), ("city2", some (.str "London")),
      ("activity_category", some (.str "food"))]⟩

/-- C9 counterexample: all three compare-cities values are present (the
claim's "provided"), yet a later COMPARE_CITIES turn with an empty slot map
does not return COMPARE_CITIES_RESULT — the stored empty-string city1 is
falsy, so the engine asks for city1 again. -/
theorem C9_counterexample :
    c9s1.compare_cities_data.city1.isSome = true ∧
    c9s1.compare_cities_data.city2.isSome = true ∧
    c9s1.compare_cities_data.activity_category.isSome = true ∧
    dmDecideRuleBased c9s1 ⟨some "COMPARE_CITIES", []⟩ "" =
      .ok (reqMissing "city1",
        afterTurn c9s1 ⟨some "COMPARE_CITIES", []⟩) ∧
    reqMissing "city1" ≠ "COMPARE_CITIES_RESULT" :=
  ⟨rfl, rfl, rfl, rfl, by decide⟩

/-- The state after a COMPARE_CITIES turn storing three truthy values. -/
def c9sGood : DialogueState :=
  afterTurn initialState
    ⟨some "COMPARE_CITIES",
     [("city1", some (.str "Paris")), ("city2", some (.str "London")),
      ("activity_category", some (.str "food"))]⟩

/-- Witness for C9: with three truthy stored values, a COMPARE_CITIES turn
with an empty slot map immediately returns COMPARE_CITIES_RESULT. -/
theorem C9_witness :
    truthyO c9sGood.compare_cities_data.city1 = true ∧
    truthyO c9sGood.compare_cities_data.city2 = true ∧
    truthyO c9sGood.compare_cities_data.activity_category = true ∧
    dmDecideRuleBased c9sGood ⟨some "COMPARE_CITIES", []⟩ "" =
      .ok ("COMPARE_CITIES_RESULT",
        { c9sGood with
            current_intent := some "COMPARE_CITIES",
            compare_cities_data :=
              mergeCompare c9sGood.compare_cities_data [],
            last_action := some "COMPARE_CITIES_RESULT" }) :=
  ⟨by decide, by decide, by decide,
    (C9_compare_scratch_monotone_and_result.2.2 c9sGood
      ⟨some "COMPARE_CITIES", []⟩ "" rfl (by decide) (by decide) (by decide)
      (Or.inl rfl) (Or.inl rfl) (Or.inl rfl)).1⟩

/-! ## C2: totality and the shape of the returned action

The claimed property is normative in the spec ("There is no fatal error
class in this core; all inputs have a defined, terminating outcome for the
turn", "The parameter inside REQUEST_MISSING_SLOT(...) must be a bare
recognized slot name") and the code plainly tries to enforce it: the
slot-change branch of dm.py guards the write with
`hasattr(booking, slot_to_change)`, and the state update guards each slot
write with `hasattr(booking, slot)` — the spec even calls the ignoring of
unknown field names "a defensive no-op, not an error".  The guard is the
slip: hasattr answers true for every attribute of the object, not only for
its recognized slots.  So a truthy non-string slot_name makes hasattr
itself raise TypeError; a slot_name of "completed" (or of any inherited
attribute name, such as "__class__", on which the subsequent setattr
raises) passes the guard, and "completed" is then echoed as the parameter
of REQUEST_MISSING_SLOT although it is not a recognized slot name; and a
slot map entry keyed "__class__" with a non-null value makes the guarded
state-update write raise.  The evaluation below runs the engine on a
reachable slot-change state and exhibits, inside the model's faithful
fragment, the non-slot parameter echo and the TypeError. -/

/-- The state in the slot-change loop reached by: filling all flight slots,
then denying the confirmation. -/
def c2sRSC : DialogueState :=
  afterTurn c3s1 ⟨some "BOOK_FLIGHT", [("confirmation", some (.str "no"))]⟩

/-- C2 failing-input evaluation, on a state reached from the initial state
(fill the flight, deny the confirmation): a slot_name of "completed" — an
attribute that is not a recognized slot of the data model — is accepted and
echoed inside REQUEST_MISSING_SLOT, and a truthy non-string slot_name value
makes the engine raise a TypeError instead of returning an action. -/
theorem C2_failing_input_eval :
    Reachable c2sRSC ∧
    c2sRSC.last_action = some "REQUEST_SLOT_CHANGE" ∧
    dmDecideRuleBased c2sRSC
        ⟨some "BOOK_FLIGHT", [("slot_name", some (.str "completed"))]⟩ "" =
      .ok (reqMissing "completed",
        afterTurn c2sRSC
          ⟨some "BOOK_FLIGHT", [("slot_name", some (.str "completed"))]⟩) ∧
    "completed" ∉ SLOTS ∧
    dmDecideRuleBased c2sRSC
        ⟨some "BOOK_FLIGHT", [("slot_name", some (.int 5))]⟩ "" =
      .error "TypeError: attribute name must be string" :=
  ⟨@Reachable.step c3s1
      ⟨some "BOOK_FLIGHT", [("confirmation", some (.str "no"))]⟩
      "" "REQUEST_SLOT_CHANGE" c2sRSC
      (@Reachable.step initialState c3nlu1 "" "ASK_CONFIRMATION" c3s1
        Reachable.init rfl) rfl,
    rfl, rfl, by decide, rfl⟩

/-! ## C7: the completed flag is set only by a completion action -/

/-- Reading the completed attribute of a flight record. -/
theorem getattrF_completed (b : FlightBooking) :
    b.getattrF "completed" = b.completed := by
  simp [FlightBooking.getattrF]

/-- Reading the completed attribute of an accommodation record. -/
theorem getattrA_completed (b : AccommodationBooking) :
    b.getattrA "completed" = b.completed := by
  simp [AccommodationBooking.getattrA]

/-- Reading the completed attribute of an activity record. -/
theorem getattrV_completed (b : ActivityBooking) :
    b.getattrV "completed" = b.completed := by
  simp [ActivityBooking.getattrV]

/-- The completed flag by task identifier, spelt out per record. -/
theorem flagOf_eq (t : String) (ctx : TripContext) :
    flagOf t ctx =
      if t = "BOOK_FLIGHT" then truthyO ctx.flight.completed
      else if t = "BOOK_ACCOMMODATION" then truthyO ctx.accommodation.completed
      else if t = "BOOK_ACTIVITY" then truthyO ctx.activity.completed
      else false := by
  unfold flagOf TripContext.get_booking
  by_cases h1 : t = "BOOK_FLIGHT"
  · subst h1
    simp [Booking.getattrB, getattrF_completed]
  by_cases h2 : t = "BOOK_ACCOMMODATION"
  · subst h2
    simp [Booking.getattrB, getattrA_completed]
  by_cases h3 : t = "BOOK_ACTIVITY"
  · subst h3
    simp [Booking.getattrB, getattrV_completed]
  · simp [h1, h2, h3]

/-- A write to a flight attribute other than completed keeps the flag. -/
theorem setattrF_completed_ne (b : FlightBooking) (name : String)
    (v : Option PyVal) (h : name ≠ "completed") :
    (b.setattrF name v).completed = b.completed := by
  unfold FlightBooking.setattrF
  split_ifs <;> simp_all

/-- A write to an accommodation attribute other than completed keeps the flag. -/
theorem setattrA_completed_ne (b : AccommodationBooking) (name : String)
    (v : Option PyVal) (h : name ≠ "completed") :
    (b.setattrA name v).completed = b.completed := by
  unfold AccommodationBooking.setattrA
  split_ifs <;> simp_all

/-- A write to an activity attribute other than completed keeps the flag. -/
theorem setattrV_completed_ne (b : ActivityBooking) (name : String)
    (v : Option PyVal) (h : name ≠ "completed") :
    (b.setattrV name v).completed = b.completed := by
  unfold ActivityBooking.setattrV
  split_ifs <;> simp_all

/-- The flight record after a keyed attribute write. -/
theorem setattrFor_flight (ctx : TripContext) (i : Option String)
    (name : String) (v : Option PyVal) :
    (ctx.setattrFor i name v).flight =
      if i = some "BOOK_FLIGHT" then ctx.flight.setattrF name v else ctx.flight := by
  unfold TripContext.setattrFor
  split_ifs <;> simp_all

/-- The accommodation record after a keyed attribute write. -/
theorem setattrFor_accommodation (ctx : TripContext) (i : Option String)
    (name : String) (v : Option PyVal) :
    (ctx.setattrFor i name v).accommodation =
      if i = some "BOOK_ACCOMMODATION" then ctx.accommodation.setattrA name v
      else ctx.accommodation := by
  unfold TripContext.setattrFor
  split_ifs <;> simp_all

/-- The activity record after a keyed attribute write. -/
theorem setattrFor_activity (ctx : TripContext) (i : Option String)
    (name : String) (v : Option PyVal) :
    (ctx.setattrFor i name v).activity =
      if i = some "BOOK_ACTIVITY" then ctx.activity.setattrV name v
      else ctx.activity := by
  unfold TripContext.setattrFor
  split_ifs <;> simp_all

/-- A keyed write to an attribute other than completed keeps every flag. -/
theorem flagOf_setattrFor_ne (ctx : TripContext) (i : Option String)
    (name : String) (v : Option PyVal) (t : String) (h : name ≠ "completed") :
    flagOf t (ctx.setattrFor i name v) = flagOf t ctx := by
  rw [flagOf_eq, flagOf_eq, setattrFor_flight, setattrFor_accommodation,
    setattrFor_activity]
  split_ifs <;>
    simp [setattrF_completed_ne _ _ _ h, setattrA_completed_ne _ _ _ h,
      setattrV_completed_ne _ _ _ h]

/-- A keyed write of Python None can never turn a flag on. -/
theorem flagOf_setattrFor_none (ctx : TripContext) (i : Option String)
    (name : String) (t : String)
    (h : flagOf t (ctx.setattrFor i name none) = true) : flagOf t ctx = true := by
  by_cases hname : name = "completed"
  · subst hname
    rw [flagOf_eq, setattrFor_flight, setattrFor_accommodation,
      setattrFor_activity] at h
    rw [flagOf_eq]
    split_ifs at h ⊢ <;>
      simp_all [FlightBooking.setattrF, AccommodationBooking.setattrA,
        ActivityBooking.setattrV, truthyO]
  · rw [flagOf_setattrFor_ne _ _ _ _ _ hname] at h
    exact h

/-- Marking a different task leaves a flag unchanged. -/
theorem flagOf_mark_completed_ne (ctx : TripContext) (x : Option String)
    (t : String) (h : x ≠ some t) :
    flagOf t (ctx.mark_completed x) = flagOf t ctx := by
  rw [flagOf_eq, flagOf_eq, mark_completed_flight, mark_completed_accommodation,
    mark_completed_activity]
  split_ifs <;> simp_all

/-- A flag that mark_completed turns from off to on names the marked task. -/
theorem flagOf_mark_completed_step (ctx : TripContext) (x : Option String)
    (t : String) (hf0 : flagOf t ctx = false)
    (hf1 : flagOf t (ctx.mark_completed x) = true) : x = some t := by
  by_cases h : x = some t
  · exact h
  · rw [flagOf_mark_completed_ne ctx x t h] at hf1
    rw [hf0] at hf1
    cases hf1

/-- Slot maps that never write a non-None value into the completed flag;
genuine NLU output only uses recognized slot names, which satisfy this. -/
def CleanSlots (slots : SlotMap) : Prop :=
  ∀ kv ∈ slots, kv.1 = "completed" → kv.2 = none

/-- Pending carryover values that never target the completed flag; every
carryover the engine computes satisfies this. -/
def PendingClean (s : DialogueState) : Prop :=
  ∀ l, s.pending_carryover = some l → ∀ kv ∈ l, kv.1 ≠ "completed"

/-- A key of an insertion result is the inserted key or an old key. -/
theorem mem_dinsert {α : Type} (acc : List (String × α)) (k : String) (v : α)
    (kv : String × α) (h : kv ∈ dinsert acc k v) : kv.1 = k ∨ kv ∈ acc := by
  induction acc with
  | nil => simp [dinsert] at h; simp [h]
  | cons hd tl ih =>
      obtain ⟨k2, w⟩ := hd
      by_cases hk : k2 = k
      · subst hk
        simp only [dinsert, reduceIte] at h
        rcases List.mem_cons.mp h with rfl | hm
        · exact Or.inl rfl
        · exact Or.inr (List.mem_cons_of_mem _ hm)
      · simp only [dinsert, hk, reduceIte] at h
        rcases List.mem_cons.mp h with rfl | hm
        · exact Or.inr (List.mem_cons_self _ _)
        · rcases ih hm with h1 | h2
          · exact Or.inl h1
          · exact Or.inr (List.mem_cons_of_mem _ h2)

/-- A key of a built carryover dict is a table target or an old key. -/
theorem mem_buildCarryover (get : String → Option PyVal)
    (pairs : List (String × String)) (acc : List (String × PyVal))
    (kv : String × PyVal) (h : kv ∈ buildCarryover get pairs acc) :
    kv.1 ∈ pairs.map Prod.snd ∨ kv ∈ acc := by
  induction pairs generalizing acc with
  | nil => exact Or.inr h
  | cons p rest ih =>
      obtain ⟨src, tgt⟩ := p
      simp only [buildCarryover] at h
      cases hg : get src with
      | none =>
          rw [hg] at h
          rcases ih _ h with h1 | h2
          · exact Or.inl (List.mem_cons_of_mem _ h1)
          · exact Or.inr h2
      | some w =>
          rw [hg] at h
          rcases ih _ h with h1 | h2
          · exact Or.inl (List.mem_cons_of_mem _ h1)
          · rcases mem_dinsert _ _ _ _ h2 with h3 | h4
            · exact Or.inl (by simp [h3])
            · exact Or.inr h4

/-- No Carryover Table entry targets the completed flag. -/
theorem carryover_targets_ne_completed (a b : String) :
    "completed" ∉ (get_carryover_slots a b).map Prod.snd := by
  unfold get_carryover_slots
  split_ifs <;> decide

/-- Every key of a computed carryover names a mapped slot, never the
completed flag. -/
theorem carryover_keys_ne_completed (ctx : TripContext) (a b : String) :
    ∀ kv ∈ ctx.get_carryover_values a b, kv.1 ≠ "completed" := by
  intro kv hkv
  unfold TripContext.get_carryover_values at hkv
  cases hb : ctx.get_booking (some a) with
  | none => rw [hb] at hkv; cases hkv
  | some src =>
      rw [hb] at hkv
      rcases mem_buildCarryover _ _ _ _ hkv with h1 | h2
      · intro hc
        exact carryover_targets_ne_completed a b (hc ▸ h1)
      · cases h2

/-- Applying carryover values that never target the completed flag keeps
every flag. -/
theorem applyCarryover_flag (ctx : TripContext) (i : Option String) (b : Booking)
    (l : List (String × PyVal)) (t : String)
    (hcl : ∀ kv ∈ l, kv.1 ≠ "completed") :
    flagOf t (applyCarryover ctx i b l) = flagOf t ctx := by
  induction l generalizing ctx with
  | nil => rfl
  | cons kv rest ih =>
      obtain ⟨k, v⟩ := kv
      have hk : k ≠ "completed" := hcl (k, v) (List.mem_cons_self _ _)
      have hrest : ∀ kv ∈ rest, kv.1 ≠ "completed" :=
        fun kv h => hcl kv (List.mem_cons_of_mem _ h)
      unfold applyCarryover
      split
      · rw [ih _ hrest, flagOf_setattrFor_ne _ _ _ _ _ hk]
      · exact ih _ hrest

/-- Applying a clean slot map keeps every flag. -/
theorem applySlots_flag (ctx : TripContext) (i : Option String) (b : Booking)
    (slots : SlotMap) (t : String) (hclean : CleanSlots slots) :
    flagOf t (applySlots ctx i b slots) = flagOf t ctx := by
  induction slots generalizing ctx with
  | nil => rfl
  | cons kv rest ih =>
      obtain ⟨k, v⟩ := kv
      have hrest : CleanSlots rest :=
        fun kv h => hclean kv (List.mem_cons_of_mem _ h)
      cases v with
      | none =>
          unfold applySlots
          exact ih _ hrest
      | some w =>
          have hk : k ≠ "completed" := by
            intro hc
            have := hclean (k, some w) (List.mem_cons_self _ _) hc
            cases this
          unfold applySlots
          dsimp only
          split
          · rw [ih _ hrest, flagOf_setattrFor_ne _ _ _ _ _ hk]
          · exact ih _ hrest

/-- The state update of a clean turn keeps every flag. -/
theorem updateState_flag (s : DialogueState) (nlu : NLUOutput) (t : String)
    (hclean : CleanSlots nlu.slots) :
    flagOf t (updateStateWithNLU s nlu).context = flagOf t s.context := by
  unfold updateStateWithNLU
  repeat' first
    | rfl
    | exact applySlots_flag _ _ _ _ _ hclean
    | split
    | dsimp only

/-- The offer-response mutation of a state with clean pending carryover
keeps every flag. -/
theorem applyOfferResponse_flag (s : DialogueState) (conf : String) (t : String)
    (hpc : PendingClean s) :
    flagOf t (applyOfferResponse s conf).context = flagOf t s.context := by
  unfold applyOfferResponse
  by_cases hy : conf = "yes"
  · simp only [hy, reduceIte]
    cases hp : s.pending_carryover with
    | none => simp [pendingTruthy]
    | some l =>
        by_cases hne : l.isEmpty
        · simp [pendingTruthy, hne]
        · simp only [pendingTruthy, hne, Bool.not_false, reduceIte]
          cases hb : s.get_current_booking with
          | none => rfl
          | some b => exact applyCarryover_flag _ _ _ _ _ (hpc l hp)
  · by_cases hn : conf = "no" <;> simp [hy, hn]

/-- The state update preserves cleanliness of the pending carryover: any
newly stored carryover is computed from the table, which never targets the
completed flag. -/
theorem updateState_pendingClean (s : DialogueState) (nlu : NLUOutput)
    (h : PendingClean s) : PendingClean (updateStateWithNLU s nlu) := by
  unfold updateStateWithNLU
  repeat' first
    | exact h
    | (intro l hl kv hkv
       obtain rfl := Option.some.inj hl
       exact carryover_keys_ne_completed _ _ _ kv hkv)
    | (intro l hl kv hkv
       exact h l hl kv hkv)
    | split
    | dsimp only

/-- The offer-response mutation preserves cleanliness of the pending
carryover (it only ever clears it). -/
theorem applyOfferResponse_pendingClean (s : DialogueState) (conf : String)
    (h : PendingClean s) : PendingClean (applyOfferResponse s conf) := by
  unfold applyOfferResponse
  repeat' first
    | exact h
    | (intro l hl
       cases hl)
    | split
    | dsimp only

/-- The final stretch preserves cleanliness of the pending carryover. -/
theorem dmFinal_pendingClean (s : DialogueState) (missing : List String)
    (h : PendingClean s) : PendingClean (dmFinal s missing).2 := by
  unfold dmFinal
  repeat' first
    | exact h
    | (intro l hl kv hkv
       exact h l hl kv hkv)
    | split
    | dsimp only

/-- The shared tail preserves cleanliness of the pending carryover. -/
theorem dmTail_pendingClean (s : DialogueState) (nlu : NLUOutput)
    (h : PendingClean s) : PendingClean (dmTail s nlu).2 := by
  have h1 := updateState_pendingClean s nlu h
  unfold dmTail
  repeat' first
    | exact h1
    | (intro l hl
       cases hl)
    | (intro l hl kv hkv
       exact h1 l hl kv hkv)
    | (apply dmFinal_pendingClean)
    | split
    | dsimp only

/-- The slot-change branch and tail preserve cleanliness of the pending
carryover. -/
theorem dmAfterOffer_pendingClean (s : DialogueState) (nlu : NLUOutput)
    (a : String) (s2 : DialogueState) (h : dmAfterOffer s nlu = .ok (a, s2))
    (hpc : PendingClean s) : PendingClean s2 := by
  rcases dmAfterOffer_cases s nlu with ⟨-, hc⟩ | ⟨-, hc | hc | hc⟩
  · have h2 : (dmTail s nlu).2 = s2 :=
      congrArg Prod.snd (Except.ok.inj (hc.symm.trans h))
    rw [← h2]
    exact dmTail_pendingClean s nlu hpc
  · obtain ⟨-, h2⟩ := ok_pair_inj (hc.symm.trans h)
    rw [← h2]
    intro l hl
    exact hpc l hl
  · obtain ⟨name, b, -, -, -, hc⟩ := hc
    obtain ⟨-, h2⟩ := ok_pair_inj (hc.symm.trans h)
    rw [← h2]
    intro l hl
    exact hpc l hl
  · obtain ⟨-, -, -, -, hc⟩ := hc
    rw [hc] at h
    exact absurd h (by simp)

/-- Every successful turn preserves cleanliness of the pending carryover. -/
theorem decide_pendingClean (s : DialogueState) (nlu : NLUOutput) (u a : String)
    (s2 : DialogueState) (h : dmDecideRuleBased s nlu u = .ok (a, s2))
    (hpc : PendingClean s) : PendingClean s2 := by
  rcases dmDecide_cases s nlu u with ⟨-, hc⟩ | hc | ⟨-, a2, -, hc⟩ |
    ⟨i, -, -, ⟨-, hc | hc | hc⟩ | ⟨-, hc | ⟨c, -, hc⟩⟩ | ⟨-, -, hc⟩⟩ <;>
  [skip; skip; skip; skip; skip; skip; skip;
   (rw [hc] at h
    exact dmAfterOffer_pendingClean _ _ _ _ h
      (applyOfferResponse_pendingClean s c hpc));
   (rw [hc] at h
    exact dmAfterOffer_pendingClean _ _ _ _ h hpc)] <;>
  · obtain ⟨-, h2⟩ := ok_pair_inj (hc.symm.trans h)
    rw [← h2]
    intro l hl
    exact hpc l hl

/-- Every reachable dialogue state has a clean pending carryover. -/
theorem pendingClean_of_reachable (s : DialogueState) (h : Reachable s) :
    PendingClean s := by
  induction h with
  | init =>
      intro l hl
      cases hl
  | step hr hstep ih => exact decide_pendingClean _ _ _ _ _ hstep ih

/-- The final stretch either keeps the context or completes the active task
(marking it) while returning its completion action. -/
theorem dmFinal_context_cases (s : DialogueState) (missing : List String) :
    (dmFinal s missing).2.context = s.context ∨
    ((dmFinal s missing).2.context = s.context.mark_completed s.current_intent ∧
     (dmFinal s missing).1 = getCompleteAction s.current_intent) := by
  cases missing with
  | cons m rest => exact Or.inl rfl
  | nil =>
      unfold dmFinal
      dsimp only
      split
      · exact Or.inl rfl
      · exact Or.inr ⟨rfl, rfl⟩

/-- The shared tail either keeps the context of the updated state or
completes the active task while returning its completion action. -/
theorem dmTail_context_cases (s : DialogueState) (nlu : NLUOutput) :
    (dmTail s nlu).2.context = (updateStateWithNLU s nlu).context ∨
    ((dmTail s nlu).2.context =
       (updateStateWithNLU s nlu).context.mark_completed
         (updateStateWithNLU s nlu).current_intent ∧
     (dmTail s nlu).1 =
       getCompleteAction (updateStateWithNLU s nlu).current_intent) := by
  unfold dmTail
  repeat' first
    | exact Or.inl rfl
    | exact dmFinal_context_cases _ _
    | split
    | dsimp only

/-- If the shared tail of a clean turn turns a completed flag on, it
returned that task's completion action. -/
theorem dmTail_flag_step (s : DialogueState) (nlu : NLUOutput) (t : String)
    (hclean : CleanSlots nlu.slots)
    (hf0 : flagOf t s.context = false)
    (hf1 : flagOf t (dmTail s nlu).2.context = true) :
    (dmTail s nlu).1 = getCompleteAction (some t) := by
  have hup := updateState_flag s nlu t hclean
  rcases dmTail_context_cases s nlu with hc | ⟨hc, ha⟩
  · rw [hc, hup, hf0] at hf1
    cases hf1
  · rw [hc] at hf1
    have hx := flagOf_mark_completed_step _ _ t (hup.trans hf0) hf1
    rw [ha, hx]

/-- If the slot-change branch or the tail of a clean turn turns a completed
flag on, the returned action is that task's completion action. -/
theorem dmAfterOffer_flag_step (s : DialogueState) (nlu : NLUOutput)
    (a : String) (s2 : DialogueState) (t : String)
    (hclean : CleanSlots nlu.slots) (h : dmAfterOffer s nlu = .ok (a, s2))
    (hf0 : flagOf t s.context = false) (hf1 : flagOf t s2.context = true) :
    a = getCompleteAction (some t) := by
  rcases dmAfterOffer_cases s nlu with ⟨-, hc⟩ | ⟨-, hc | hc | hc⟩
  · have hd := Except.ok.inj (hc.symm.trans h)
    have ha : (dmTail s nlu).1 = a := congrArg Prod.fst hd
    have hs : (dmTail s nlu).2 = s2 := congrArg Prod.snd hd
    rw [← ha]
    exact dmTail_flag_step s nlu t hclean hf0 (by rw [hs]; exact hf1)
  · obtain ⟨-, h2⟩ := ok_pair_inj (hc.symm.trans h)
    rw [← h2] at hf1
    have h3 : flagOf t s.context = true := hf1
    rw [hf0] at h3
    cases h3
  · obtain ⟨name, b, -, -, -, hc⟩ := hc
    obtain ⟨-, h2⟩ := ok_pair_inj (hc.symm.trans h)
    rw [← h2] at hf1
    have h3 : flagOf t (s.context.setattrFor s.current_intent name none) = true := hf1
    have h4 := flagOf_setattrFor_none _ _ _ _ h3
    rw [hf0] at h4
    cases h4
  · obtain ⟨-, -, -, -, hc⟩ := hc
    rw [hc] at h
    exact absurd h (by simp)

/-- C7 amended: in every reachable dialogue state, on every turn whose slot
map does not write a non-None value into the reserved attribute name
completed (every genuine NLU output — recognized slot names only — is such),
a Booking Record completed flag can go from off to on only on a turn whose
returned action is that task's completion action. -/
theorem C7_completed_flag_only_on_completion (s : DialogueState)
    (nlu : NLUOutput) (u a : String) (s2 : DialogueState) (t : String)
    (hreach : Reachable s) (hclean : CleanSlots nlu.slots)
    (h : dmDecideRuleBased s nlu u = .ok (a, s2))
    (hf0 : flagOf t s.context = false) (hf1 : flagOf t s2.context = true) :
    a = getCompleteAction (some t) := by
  have hpc := pendingClean_of_reachable s hreach
  rcases dmDecide_cases s nlu u with ⟨-, hc⟩ | hc | ⟨-, a2, -, hc⟩ |
    ⟨i, -, -, ⟨-, hc | hc | hc⟩ | ⟨-, hc | ⟨c, -, hc⟩⟩ | ⟨-, -, hc⟩⟩
  · obtain ⟨-, h2⟩ := ok_pair_inj (hc.symm.trans h)
    rw [← h2] at hf1
    have h3 : flagOf t s.context = true := hf1
    rw [hf0] at h3
    cases h3
  · obtain ⟨-, h2⟩ := ok_pair_inj (hc.symm.trans h)
    rw [← h2] at hf1
    have h3 : flagOf t s.context = true := hf1
    rw [hf0] at h3
    cases h3
  · obtain ⟨-, h2⟩ := ok_pair_inj (hc.symm.trans h)
    rw [← h2] at hf1
    have h3 : flagOf t s.context = true := hf1
    rw [hf0] at h3
    cases h3
  · obtain ⟨-, h2⟩ := ok_pair_inj (hc.symm.trans h)
    rw [← h2] at hf1
    have h3 : flagOf t s.context = true := hf1
    rw [hf0] at h3
    cases h3
  · obtain ⟨h1, h2⟩ := ok_pair_inj (hc.symm.trans h)
    rw [← h2] at hf1
    have h3 : flagOf t (s.context.mark_completed s.current_intent) = true := hf1
    have hx := flagOf_mark_completed_step s.context s.current_intent t hf0 h3
    rw [← h1, hx]
  · obtain ⟨-, h2⟩ := ok_pair_inj (hc.symm.trans h)
    rw [← h2] at hf1
    have h3 : flagOf t s.context = true := hf1
    rw [hf0] at h3
    cases h3
  · obtain ⟨-, h2⟩ := ok_pair_inj (hc.symm.trans h)
    rw [← h2] at hf1
    have h3 : flagOf t s.context = true := hf1
    rw [hf0] at h3
    cases h3
  · rw [hc] at h
    refine dmAfterOffer_flag_step _ nlu a s2 t hclean h ?_ hf1
    rw [applyOfferResponse_flag s c t hpc]
    exact hf0
  · rw [hc] at h
    exact dmAfterOffer_flag_step s nlu a s2 t hclean h hf0 hf1

/-- A turn whose slot map smuggles a value into the reserved attribute name
completed. -/
def c7nluBad : NLUOutput := ⟨some "BOOK_FLIGHT", [("completed", some (.bool true))]⟩

/-- C7 counterexample: from the initial state, a single BOOK_FLIGHT turn
whose slot map contains the key completed (an unrecognized slot name, which
the spec says is ignored) sets the flight record completed flag to true
while returning REQUEST_MISSING_SLOT(origin), not the completion action. -/
theorem C7_counterexample :
    Reachable initialState ∧
    flagOf "BOOK_FLIGHT" initialState.context = false ∧
    dmDecideRuleBased initialState c7nluBad "" =
      .ok (reqMissing "origin", afterTurn initialState c7nluBad) ∧
    flagOf "BOOK_FLIGHT" (afterTurn initialState c7nluBad).context = true ∧
    reqMissing "origin" ≠ "COMPLETE_FLIGHT_BOOKING" :=
  ⟨Reachable.init, rfl, rfl, rfl, by decide⟩

/-- Witness for the C7 amended theorem at the concrete completing turn of
the C3 run. -/
theorem C7_witness :
    CleanSlots c3nlu2.slots ∧
    flagOf "BOOK_FLIGHT" c3s1.context = false ∧
    dmDecideRuleBased c3s1 c3nlu2 "" = .ok ("COMPLETE_FLIGHT_BOOKING", c3s2) ∧
    flagOf "BOOK_FLIGHT" c3s2.context = true ∧
    "COMPLETE_FLIGHT_BOOKING" = getCompleteAction (some "BOOK_FLIGHT") :=
  ⟨by intro kv hkv; simp only [c3nlu2, List.mem_singleton] at hkv; subst hkv; decide, rfl, rfl, rfl,
    C7_completed_flag_only_on_completion c3s1 c3nlu2 ""
      "COMPLETE_FLIGHT_BOOKING" c3s2 "BOOK_FLIGHT"
      (@Reachable.step initialState c3nlu1 "" "ASK_CONFIRMATION" c3s1
        Reachable.init rfl)
      (by intro kv hkv; simp only [c3nlu2, List.mem_singleton] at hkv; subst hkv; decide) rfl rfl rfl⟩
